import Mathlib

/-!
# Beehive monitor: menu navigator and calibration engine

A shallow embedding of `menu_manager.cpp` (menu tree, `menuDraw`, `menuUpdate`),
of `getButton` of `ui.cpp`, and of `calibration.cpp` (scale, battery,
accelerometer and offset calibration over the preferences store), followed by
the properties proved about them.

Conventions of the embedding

* The seventeen static `MenuItem` objects form an arena addressed by `NodeId`;
  a C pointer to one of them is an `Option NodeId`, `none` being `nullptr`.
* Dereferencing `nullptr` is a fault: a function that can do so returns
  `Except Fault _`.
* The `while (last->next)` walk of `menuUpdate` is run with an explicit step
  budget; a walk that exhausts it returns `Fault.outOfFuel`.
* The display is an output log of `Effect`s.
-/

namespace Beehive

/-! ## Menu tree -/

/-- Text identifiers used by the menu entries (`text_strings.h`). -/
inductive TextId
  | TXT_NONE | TXT_STATUS | TXT_TIME | TXT_MEASUREMENTS | TXT_WEATHER
  | TXT_CONNECTIVITY | TXT_PROVISION | TXT_CALIBRATION | TXT_LANGUAGE
  | TXT_SD_INFO | TXT_BACK | TXT_TARE | TXT_CALIBRATE_KNOWN | TXT_RAW_VALUE
  | TXT_SAVE_FACTOR
  deriving DecidableEq, Repr

/-- The screen functions a menu entry can carry as its `action`. -/
inductive Action
  | menuShowStatus | menuShowTime | menuShowMeasurements | menuShowWeather
  | menuShowConnectivity | menuShowProvision | menuShowCalibration
  | menuSetLanguage | menuShowSDInfo
  | menuCalTare | menuCalCalibrate | menuCalRaw | menuCalSave
  deriving DecidableEq, Repr

/-- The static `MenuItem` objects of `menu_manager.cpp`, lines 19 and 38-55. -/
inductive NodeId
  | root
  | m_status | m_time | m_measure | m_weather | m_connectivity | m_provision
  | m_calibration | m_language | m_sdinfo | m_back
  | cal_root | m_cal_tare | m_cal_cal | m_cal_raw | m_cal_save | m_cal_back
  deriving DecidableEq, Repr, Fintype

/-- Modelled from the spec: the `MenuItem` record of `menu_manager.h`, which is
not among the sources. The field order (label, action, next, prev, parent,
child) is the one the spec lists and the one the aggregate initialisers of
`menuInit` rely on. -/
structure MenuItem where
  text : TextId
  action : Option Action
  next : Option NodeId
  prev : Option NodeId
  parent : Option NodeId
  child : Option NodeId
  deriving DecidableEq, Repr

/-- Modelled from the spec: the `Button` enumeration of `ui.h`, which is not
among the sources; these five values are the ones `getButton` returns. -/
inductive Button
  | BTN_NONE | BTN_UP_PRESSED | BTN_DOWN_PRESSED | BTN_SELECT_PRESSED
  | BTN_BACK_PRESSED
  deriving DecidableEq, Repr, Fintype

/-- What the navigator sends to the display and to the screens. -/
inductive Effect
  /-- Call of `uiClear()`. -/
  | uiClear
  /-- Call of `uiPrint(0, line, ">")` when `selected`, else `uiPrint(0, line, " ")`. -/
  | printMarker (line : Nat) (selected : Bool)
  /-- The label of an entry printed at column 1 of `line`. -/
  | printLabel (line : Nat) (text : TextId)
  /-- Call of `currentItem->action()`. -/
  | action (a : Action)
  deriving DecidableEq, Repr

/-- Ways a step can go wrong. -/
inductive Fault
  /-- A null pointer was dereferenced. -/
  | nullDeref
  /-- The step budget of a loop was exhausted. -/
  | outOfFuel
  deriving DecidableEq, Repr

/-- The mutable state of the navigator: `currentItem` (line 20), the static
`scroll` of `menuDraw` (line 125) and the output sent so far. `scroll` starts at
0 and is only ever assigned `selectedIndex` or, under
`selectedIndex > scroll + 3`, `selectedIndex - 3`; it is never negative and is
kept as a natural number. -/
structure Navigator where
  currentItem : Option NodeId
  scroll : Nat
  out : List Effect
  deriving DecidableEq, Repr

open NodeId TextId Action Button

/-- The menu tree as `menuInit` leaves it (lines 70-91). `root` is a static
object, zero-initialised, of which `menuInit` sets `text` and `child`. -/
def menuItems : NodeId → MenuItem
  | m_status       => ⟨TXT_STATUS,       some menuShowStatus,       some m_time,         none,                some root,     none⟩
  | m_time         => ⟨TXT_TIME,         some menuShowTime,         some m_measure,      some m_status,       some root,     none⟩
  | m_measure      => ⟨TXT_MEASUREMENTS, some menuShowMeasurements, some m_weather,      some m_time,         some root,     none⟩
  | m_weather      => ⟨TXT_WEATHER,      some menuShowWeather,      some m_connectivity, some m_measure,      some root,     none⟩
  | m_connectivity => ⟨TXT_CONNECTIVITY, some menuShowConnectivity, some m_provision,    some m_weather,      some root,     none⟩
  | m_provision    => ⟨TXT_PROVISION,    some menuShowProvision,    some m_calibration,  some m_connectivity, some root,     none⟩
  | m_calibration  => ⟨TXT_CALIBRATION,  some menuShowCalibration,  some m_language,     some m_provision,    some root,     some cal_root⟩
  | m_language     => ⟨TXT_LANGUAGE,     some menuSetLanguage,      some m_sdinfo,       some m_calibration,  some root,     none⟩
  | m_sdinfo       => ⟨TXT_SD_INFO,      some menuShowSDInfo,       some m_back,         some m_language,     some root,     none⟩
  | m_back         => ⟨TXT_BACK,         none,                      none,                some m_sdinfo,       some root,     none⟩
  | root           => ⟨TXT_NONE,         none,                      none,                none,                none,          some m_status⟩
  | m_cal_tare     => ⟨TXT_TARE,            some menuCalTare,      some m_cal_cal,  none,            some cal_root, none⟩
  | m_cal_cal      => ⟨TXT_CALIBRATE_KNOWN, some menuCalCalibrate, some m_cal_raw,  some m_cal_tare, some cal_root, none⟩
  | m_cal_raw      => ⟨TXT_RAW_VALUE,       some menuCalRaw,       some m_cal_save, some m_cal_cal,  some cal_root, none⟩
  | m_cal_save     => ⟨TXT_SAVE_FACTOR,     some menuCalSave,      some m_cal_back, some m_cal_raw,  some cal_root, none⟩
  | m_cal_back     => ⟨TXT_BACK,            none,                  none,            some m_cal_save, some root,     none⟩
  | cal_root       => ⟨TXT_CALIBRATION,     none,                  some m_cal_tare, none,            some root,     none⟩

/-- The navigator right after `menuInit` (line 93): `currentItem = &m_status`,
`scroll` still at its initial 0, nothing drawn. -/
def menuInit : Navigator :=
  { currentItem := some m_status, scroll := 0, out := [] }

/-! ## menuDraw -/

/-- The local array `list` of `menuDraw` (lines 102-113). -/
def menuList : List NodeId :=
  [m_status, m_time, m_measure, m_weather, m_connectivity, m_provision,
   m_calibration, m_language, m_sdinfo, m_back]

/-- The constant `MENU_COUNT` of `menuDraw`, `sizeof(list) / sizeof(list[0])`. -/
def MENU_COUNT : Nat := menuList.length

/-- The search loop of lines 117-123 from position `i` on: the position of the
first entry equal to `currentItem`, and the initial 0 when there is none. -/
def findSelected (cur : Option NodeId) : List NodeId → Nat → Nat
  | [], _ => 0
  | n :: rest, i => if some n = cur then i else findSelected cur rest (i + 1)

/-- The value of `selectedIndex` after the search loop. -/
def selectedIndex (cur : Option NodeId) : Nat :=
  findSelected cur menuList 0

/-- The two scroll adjustments of lines 126-127, in order. -/
def adjustScroll (scroll selected : Nat) : Nat :=
  let s1 := if selected < scroll then selected else scroll
  if selected > s1 + 3 then selected - 3 else s1

/-- The row loop of lines 129-142 over the remaining `lines`: it stops at the
first `idx >= MENU_COUNT`, and prints the marker and then the label of
`list[idx]`. -/
def drawRows (t : NodeId → MenuItem) (cur : Option NodeId) (scroll : Nat) :
    List Nat → List Effect
  | [] => []
  | line :: rest =>
    let idx := scroll + line
    if MENU_COUNT ≤ idx then []
    else
      match menuList.get? idx with
      | none => []
      | some n =>
        Effect.printMarker line (decide (some n = cur))
          :: Effect.printLabel line (t n).text
          :: drawRows t cur scroll rest

/-- The function `menuDraw` (lines 99-143): clear, recompute `scroll`, draw up to four rows. -/
def menuDraw (t : NodeId → MenuItem) (s : Navigator) : Navigator :=
  let scroll := adjustScroll s.scroll (selectedIndex s.currentItem)
  { currentItem := s.currentItem
    scroll := scroll
    out := s.out ++ Effect.uiClear :: drawRows t s.currentItem scroll [0, 1, 2, 3] }

/-! ## Screen actions -/

/-- Whether the body of a screen function ends in a call of `menuDraw()`
(lines 201-781): every one does, on each of its return paths, except
`menuShowCalibration` (lines 501-515), which only prints. -/
def actionRedraws : Action → Bool
  | menuShowCalibration => false
  | _ => true

/-- The effect of `currentItem->action()` on the navigator: the screen runs
(its own output and its blocking loop are abstracted to one `Effect.action`),
never assigns `currentItem`, and redraws the menu before returning when
`actionRedraws` says so. -/
def runAction (t : NodeId → MenuItem) (s : Navigator) (a : Action) : Navigator :=
  let s1 := { s with out := s.out ++ [Effect.action a] }
  if actionRedraws a then menuDraw t s1 else s1

/-! ## menuUpdate -/

/-- The loop `while (last->next) last = last->next;` of line 157, started at
`last`, with a step budget. -/
def lastSibling (t : NodeId → MenuItem) : Nat → NodeId → Except Fault NodeId
  | 0, _ => .error Fault.outOfFuel
  | fuel + 1, last =>
    match (t last).next with
    | none => .ok last
    | some n => lastSibling t fuel n

/-- The function `menuUpdate` (lines 148-196) on the button `b` that
`getButton()` returned. `fuel` bounds the walk to the last sibling. -/
def menuUpdate (t : NodeId → MenuItem) (fuel : Nat) (s : Navigator) (b : Button) :
    Except Fault Navigator :=
  if b = BTN_NONE then .ok s
  else
    match s.currentItem with
    | none => .error Fault.nullDeref
    | some cur =>
      let parent := ((t cur).parent).getD root
      match (t parent).child with
      | none => .error Fault.nullDeref
      | some first =>
        match lastSibling t fuel first with
        | .error e => .error e
        | .ok last =>
          match b with
          | BTN_UP_PRESSED =>
            .ok (menuDraw t { s with currentItem := some (((t cur).prev).getD last) })
          | BTN_DOWN_PRESSED =>
            .ok (menuDraw t { s with currentItem := some (((t cur).next).getD first) })
          | BTN_BACK_PRESSED =>
            match (t cur).parent with
            | some p => .ok (menuDraw t { s with currentItem := some p })
            | none => .ok s
          | BTN_SELECT_PRESSED =>
            match (t cur).action with
            | some a => .ok (runAction t s a)
            | none =>
              match (t cur).child with
              | some c => .ok (menuDraw t { s with currentItem := some c })
              | none => .ok s
          | BTN_NONE => .ok s

/-- A sequence of calls of `menuUpdate`, one per button event, stopping at the
first fault. -/
def menuRun (t : NodeId → MenuItem) (fuel : Nat) (s : Navigator) :
    List Button → Except Fault Navigator
  | [] => .ok s
  | b :: rest =>
    match menuUpdate t fuel s b with
    | .error e => .error e
    | .ok s1 => menuRun t fuel s1 rest

/-! ## Notions of the specification -/

/-- The number of `prev` links between a node and the head of its chain. -/
def rankFrom (t : NodeId → MenuItem) : Nat → NodeId → Nat
  | 0, _ => 0
  | fuel + 1, n =>
    match (t n).prev with
    | none => 0
    | some p => rankFrom t fuel p + 1

/-- The 0-based rank of a node within its sibling chain, `index(current)` of
the specification. Seventeen steps cover every chain of the arena. -/
def siblingIndex (t : NodeId → MenuItem) (n : NodeId) : Nat :=
  rankFrom t 17 n

/-- The head of the chain of a node: follow `prev` to the end. -/
def chainHead (t : NodeId → MenuItem) : Nat → NodeId → NodeId
  | 0, n => n
  | fuel + 1, n =>
    match (t n).prev with
    | none => n
    | some p => chainHead t fuel p

/-- The nodes met from `n` on by following `next`. -/
def chainFrom (t : NodeId → MenuItem) : Nat → NodeId → List NodeId
  | 0, _ => []
  | fuel + 1, n =>
    match (t n).next with
    | none => [n]
    | some m => n :: chainFrom t fuel m

/-- The sibling chain of a node: from its head, along `next`. -/
def siblingChain (t : NodeId → MenuItem) (n : NodeId) : List NodeId :=
  chainFrom t 17 (chainHead t 17 n)

/-- The node reached from `n` by following `parent` links `k` times, `none`
when the links end before. -/
def climb (t : NodeId → MenuItem) : Nat → NodeId → Option NodeId
  | 0, n => some n
  | k + 1, n =>
    match (t n).parent with
    | none => none
    | some p => climb t k p

/-- The number of parent links between a node and the root in the tree of
`menuInit`. -/
def menuDepth : NodeId → Nat
  | root => 0
  | m_cal_tare => 2
  | m_cal_cal => 2
  | m_cal_raw => 2
  | m_cal_save => 2
  | _ => 1

/-- The lines of the rows whose marker is the selection marker ">". -/
def selectedLines : List Effect → List Nat
  | [] => []
  | Effect.printMarker line true :: rest => line :: selectedLines rest
  | _ :: rest => selectedLines rest

/-- The lines of the rows whose marker is the blank marker. -/
def blankLines : List Effect → List Nat
  | [] => []
  | Effect.printMarker line false :: rest => line :: blankLines rest
  | _ :: rest => blankLines rest

/-- The lines of the rows rendered, one label each. -/
def renderedLines : List Effect → List Nat
  | [] => []
  | Effect.printLabel line _ :: rest => line :: renderedLines rest
  | _ :: rest => renderedLines rest

/-- The scroll-window invariant of the specification. -/
def scrollWindow (t : NodeId → MenuItem) (s : Navigator) : Prop :=
  ∀ n, s.currentItem = some n →
    s.scroll ≤ siblingIndex t n ∧ siblingIndex t n ≤ s.scroll + 3

/-- Whether `menuUpdate` changes the selection (and so redraws) on button `b`
with `n` selected: every `UP` and `DOWN`, a `BACK` from a node with a parent,
a `SELECT` that enters a child. -/
def changesSelection (t : NodeId → MenuItem) (n : NodeId) : Button → Bool
  | BTN_UP_PRESSED => true
  | BTN_DOWN_PRESSED => true
  | BTN_BACK_PRESSED => ((t n).parent).isSome
  | BTN_SELECT_PRESSED => ((t n).action).isNone && ((t n).child).isSome
  | BTN_NONE => false

/-- The selected node of a result, faults kept. -/
def curOf (r : Except Fault Navigator) : Except Fault (Option NodeId) :=
  match r with
  | .error e => .error e
  | .ok s => .ok s.currentItem

deriving instance DecidableEq for Except

/-! ## getButton -/

/-- The levels `digitalRead` returns for the four button pins, as the `bool`
values `getButton` keeps of them (the inputs are pulled up: `true` is
released, `false` is pressed). -/
structure Pins where
  up : Bool
  down : Bool
  sel : Bool
  back : Bool
  deriving DecidableEq, Repr

/-- The static variables of `getButton` (`ui.cpp`, lines 16-20), and the number
of times the four inputs have been sampled. `lastTime` is a `uint32_t`. -/
structure ButtonState where
  lastTime : Nat
  upLast : Bool
  downLast : Bool
  selLast : Bool
  backLast : Bool
  sampled : Nat
  deriving DecidableEq, Repr

/-- The initial values of the static variables of `getButton`. -/
def buttonInit : ButtonState :=
  { lastTime := 0, upLast := true, downLast := true, selLast := true, backLast := true,
    sampled := 0 }

/-- The function `getButton` (`ui.cpp`, lines 14-43) on the value `now` that
`millis()` returns and the levels `pins` the inputs have at that moment: the
button reported and the new static variables. `now - lastTime` is a
subtraction of `uint32_t` values, modulo `2 ^ 32`. -/
def getButton (st : ButtonState) (now : Nat) (pins : Pins) : Button × ButtonState :=
  if (now + 2 ^ 32 - st.lastTime) % 2 ^ 32 < 120 then (BTN_NONE, st)
  else
    let st1 := { st with lastTime := now, sampled := st.sampled + 1 }
    if st1.upLast && !pins.up then (BTN_UP_PRESSED, { st1 with upLast := pins.up })
    else if st1.downLast && !pins.down then
      (BTN_DOWN_PRESSED, { st1 with downLast := pins.down })
    else if st1.selLast && !pins.sel then
      (BTN_SELECT_PRESSED, { st1 with selLast := pins.sel })
    else if st1.backLast && !pins.back then
      (BTN_BACK_PRESSED, { st1 with backLast := pins.back })
    else
      (BTN_NONE, { st1 with upLast := pins.up, downLast := pins.down, selLast := pins.sel,
                            backLast := pins.back })

/-- A sequence of calls of `getButton`, each with its clock reading and pin
levels: the clock reading and the button reported of every call. -/
def getButtonRun (st : ButtonState) : List (Nat × Pins) → List (Nat × Button)
  | [] => []
  | c :: rest => (c.1, (getButton st c.1 c.2).1) :: getButtonRun (getButton st c.1 c.2).2 rest

/-! ## Calibration engine -/

/-- A value of type `float`. Arithmetic is exact: a finite value is a rational
and no rounding takes place; the two infinities and NaN are values of their
own. The sign of a zero is not kept. -/
inductive Flt
  | num (q : ℚ)
  | inf (negative : Bool)
  | nan
  deriving DecidableEq

namespace Flt

/-- Conversion `float(x)` of an integer. -/
def ofInt (x : Int) : Flt := num x

/-- Product of two floats: NaN when either is and for zero times an infinity. -/
def mul : Flt → Flt → Flt
  | num a, num b => num (a * b)
  | num a, inf s => if a = 0 then nan else inf (xor s (decide (a < 0)))
  | inf s, num b => if b = 0 then nan else inf (xor s (decide (b < 0)))
  | inf s, inf t => inf (xor s t)
  | _, _ => nan

/-- Quotient of two floats: NaN when either is, for `0 / 0` and for an
infinity over an infinity; an infinity for a number other than 0 over 0. -/
def div : Flt → Flt → Flt
  | num a, num b =>
    if b = 0 then (if a = 0 then nan else inf (decide (a < 0))) else num (a / b)
  | num _, inf _ => num 0
  | inf s, num b => inf (xor s (decide (b < 0)))
  | _, _ => nan

/-- The comparison `x == 0.0f`, false for NaN and for an infinity. -/
def isZero : Flt → Bool
  | num q => decide (q = 0)
  | _ => false

/-- Sum of two floats: NaN when either is and for infinities of opposite
sign. -/
def add : Flt → Flt → Flt
  | num a, num b => num (a + b)
  | num _, inf s => inf s
  | inf s, num _ => inf s
  | inf s, inf t => if s = t then inf s else nan
  | _, _ => nan

/-- The comparison `x > y`, false when either is NaN. -/
def gt : Flt → Flt → Bool
  | num a, num b => decide (b < a)
  | inf s, num _ => !s
  | num _, inf t => t
  | inf s, inf t => !s && t
  | _, _ => false

/-- The test `isnan(x)`. -/
def isNan : Flt → Bool
  | nan => true
  | _ => false

end Flt

/-- The value a signed 32-bit `long` holds after an operation whose exact
result is `x` (two's complement wrap-around). -/
def wrap32 (x : Int) : Int := (x + 2 ^ 31) % 2 ^ 32 - 2 ^ 31

/-- The preferences store `prefs`, opened under the namespace "calib": one
table per value type, a missing key being `none`. -/
structure Prefs where
  longs : String → Option Int
  floats : String → Option Flt

namespace Prefs

/-- Call of `prefs.getLong(key, dflt)`. -/
def getLong (p : Prefs) (key : String) (dflt : Int) : Int :=
  match p.longs key with
  | some v => v
  | none => dflt

/-- Call of `prefs.getFloat(key, dflt)`. -/
def getFloat (p : Prefs) (key : String) (dflt : Flt) : Flt :=
  match p.floats key with
  | some v => v
  | none => dflt

/-- Call of `prefs.putLong(key, v)`. -/
def putLong (p : Prefs) (key : String) (v : Int) : Prefs :=
  { p with longs := fun k => if k = key then some v else p.longs k }

/-- Call of `prefs.putFloat(key, v)`. -/
def putFloat (p : Prefs) (key : String) (v : Flt) : Prefs :=
  { p with floats := fun k => if k = key then some v else p.floats k }

end Prefs

/-- Preference key of the scale zero (line 33). -/
def K_ZERO : String := "scale_zero"

/-- Preference key of the scale factor (line 34). -/
def K_SCALE : String := "scale_fac"

/-- Preference key of the battery factor (line 35). -/
def K_BATT_FACTOR : String := "batt_fac"

/-- Preference key of the accelerometer bias, x axis (line 36). -/
def K_ACCEL_BX : String := "acc_bx"

/-- Preference key of the accelerometer bias, y axis (line 37). -/
def K_ACCEL_BY : String := "acc_by"

/-- Preference key of the accelerometer bias, z axis (line 38). -/
def K_ACCEL_BZ : String := "acc_bz"

/-- Preference key of the temperature offset (line 39). -/
def K_TEMP_OFF : String := "temp_off"

/-- Preference key of the humidity offset (line 40). -/
def K_HUM_OFF : String := "hum_off"

/-- The state `calibration.cpp` works on: the store, the readiness flag of the
HX711, and the HX711 itself as the sequence of values its `read()` returns,
with the number of reads made so far. In the same way `mpu` is the sequence of
accelerations (x, y, z) that `mpu.getEvent` delivers, numbers all, and `adc`
the sequence of results of `analogRead(BATTERY_PIN)`, which lie in 0..4095
(line 139). -/
structure Device where
  prefs : Prefs
  hxReady : Bool
  hx : Nat → Int
  hxReads : Nat
  mpuReady : Bool
  mpu : Nat → ℚ × ℚ × ℚ
  mpuReads : Nat
  adc : Nat → Fin 4096
  adcReads : Nat

/-- The sampling loop of `hx_readAverage` (lines 73-78) with `k` iterations
left and the running `sum`; the delay between reads is not modelled. -/
def hx_readLoop (d : Device) : Nat → Int → Int × Device
  | 0, sum => (sum, d)
  | k + 1, sum => hx_readLoop { d with hxReads := d.hxReads + 1 } k (sum + d.hx d.hxReads)

/-- The helper `hx_readAverage` (lines 70-81): `samples` is a `uint8_t`, the
sum is kept in a `long long`, the quotient truncates toward zero and is cast
to `long`. -/
def hx_readAverage (d : Device) (samples : Fin 256) : Int × Device :=
  let r := hx_readLoop d samples.val 0
  if samples.val = 0 then (0, r.2)
  else (wrap32 (Int.tdiv r.1 samples.val), r.2)

/-- The function `calibration_calibrateOnePoint` (lines 101-112): the result
and the state it leaves. -/
def calibration_calibrateOnePoint (d : Device) (knownWeightKg : Flt) (samples : Fin 256) :
    Bool × Device :=
  if d.hxReady = false then (false, d)
  else
    let zero := d.prefs.getLong K_ZERO 0
    let r := hx_readAverage d samples
    let rawKnown := r.1
    if rawKnown = zero then (false, r.2)
    else
      let scale := Flt.div knownWeightKg (Flt.ofInt (wrap32 (rawKnown - zero)))
      let p1 := r.2.prefs.putFloat K_SCALE scale
      let p2 := p1.putLong K_ZERO zero
      (true, { r.2 with prefs := p2 })

/-- The function `calibration_computeWeightFromRaw` (lines 114-119). -/
def calibration_computeWeightFromRaw (d : Device) (raw : Int) : Flt :=
  let zero := d.prefs.getLong K_ZERO 0
  let scale := d.prefs.getFloat K_SCALE (Flt.num 0)
  if scale.isZero then Flt.num 0
  else Flt.mul (Flt.ofInt (wrap32 (raw - zero))) scale

/-- The function `calibration_tareScale` (lines 83-94): the result and the
state it leaves. -/
def calibration_tareScale (d : Device) (samples : Fin 256) : Bool × Device :=
  if d.hxReady = false then (false, d)
  else
    let r := hx_readAverage d samples
    let zero := r.1
    let p1 := r.2.prefs.putLong K_ZERO zero
    let existing := p1.getFloat K_SCALE Flt.nan
    let p2 := if existing.isNan then p1.putFloat K_SCALE (Flt.num 1) else p1
    (true, { r.2 with prefs := p2 })

/-- The function `calibration_readScaleRaw` (lines 96-99): the value returned
and the state it leaves. -/
def calibration_readScaleRaw (d : Device) (samples : Fin 256) : Int × Device :=
  if d.hxReady = false then (0, d)
  else hx_readAverage d samples

/-- The sampling loop of the two battery functions (lines 133-137 and
155-158) with `k` iterations left and the running `sum`. At most 255 values
below 4096 are added, so the `long` sum never overflows. -/
def adc_sumLoop (d : Device) : Nat → Int → Int × Device
  | 0, sum => (sum, d)
  | k + 1, sum =>
    adc_sumLoop { d with adcReads := d.adcReads + 1 } k (sum + ((d.adc d.adcReads).val : Int))

/-- The constant `ADC_MAX` (lines 140 and 160). -/
def ADC_MAX : Flt := Flt.num 4095

/-- The constant `VREF` (lines 141 and 161). -/
def VREF : Flt := Flt.num (33 / 10)

/-- The resistor `R1` of the divider (`config.h`, line 33). -/
def R1 : Flt := Flt.num 10000

/-- The resistor `R2` of the divider (`config.h`, line 34). -/
def R2 : Flt := Flt.num 10000

/-- The estimate `vbatMeasured` both battery functions compute from the sum of
the samples (lines 138-145 and 159-164). -/
def vbatMeasured (sum : Int) (samples : Fin 256) : Flt :=
  let avgRaw := Flt.div (Flt.ofInt sum) (Flt.ofInt samples.val)
  let measuredV := Flt.mul (Flt.div avgRaw ADC_MAX) VREF
  let divider := Flt.div (Flt.add R1 R2) R2
  Flt.mul measuredV divider

/-- The function `calibration_calibrateBattery` (lines 130-151): the result
and the state it leaves. -/
def calibration_calibrateBattery (d : Device) (knownVoltage : Flt) (samples : Fin 256) :
    Bool × Device :=
  let r := adc_sumLoop d samples.val 0
  let vbat := vbatMeasured r.1 samples
  let factor := if Flt.gt vbat (Flt.num (1 / 10000)) then Flt.div knownVoltage vbat
    else Flt.num 1
  (true, { r.2 with prefs := r.2.prefs.putFloat K_BATT_FACTOR factor })

/-- The function `calibration_readBatteryVoltage` (lines 153-167): the value
returned and the state it leaves. -/
def calibration_readBatteryVoltage (d : Device) (samples : Fin 256) : Flt × Device :=
  let r := adc_sumLoop d samples.val 0
  let vbat := vbatMeasured r.1 samples
  let factor := r.2.prefs.getFloat K_BATT_FACTOR (Flt.num 1)
  (Flt.mul vbat factor, r.2)

/-- The sampling loop of `calibration_calibrateAccelZero` (lines 176-182) with
`k` iterations left and the running sums `bx`, `by`, `bz`. -/
def mpu_sumLoop (d : Device) : Nat → Flt × Flt × Flt → (Flt × Flt × Flt) × Device
  | 0, b => (b, d)
  | k + 1, b =>
    let a := d.mpu d.mpuReads
    mpu_sumLoop { d with mpuReads := d.mpuReads + 1 } k
      (Flt.add b.1 (Flt.num a.1), Flt.add b.2.1 (Flt.num a.2.1),
        Flt.add b.2.2 (Flt.num a.2.2))

/-- The function `calibration_calibrateAccelZero` (lines 172-190): the result
and the state it leaves. -/
def calibration_calibrateAccelZero (d : Device) (samples : Fin 256) : Bool × Device :=
  if d.mpuReady = false then (false, d)
  else
    let r := mpu_sumLoop d samples.val (Flt.num 0, Flt.num 0, Flt.num 0)
    let n := Flt.ofInt samples.val
    let bx := Flt.div r.1.1 n
    let b_y := Flt.div r.1.2.1 n
    let bz := Flt.div r.1.2.2 n
    let p := ((r.2.prefs.putFloat K_ACCEL_BX bx).putFloat K_ACCEL_BY b_y).putFloat K_ACCEL_BZ bz
    (true, { r.2 with prefs := p })

/-- The function `calibration_setTempOffset` (lines 201-203). -/
def calibration_setTempOffset (d : Device) (deltaC : Flt) : Device :=
  { d with prefs := d.prefs.putFloat K_TEMP_OFF deltaC }

/-- The function `calibration_setHumOffset` (lines 205-207). -/
def calibration_setHumOffset (d : Device) (deltaPct : Flt) : Device :=
  { d with prefs := d.prefs.putFloat K_HUM_OFF deltaPct }

/-- The function `calibration_getTempOffset` (lines 209-211). -/
def calibration_getTempOffset (d : Device) : Flt :=
  d.prefs.getFloat K_TEMP_OFF (Flt.num 0)

/-- The function `calibration_getHumOffset` (lines 213-215). -/
def calibration_getHumOffset (d : Device) : Flt :=
  d.prefs.getFloat K_HUM_OFF (Flt.num 0)

/-! ## Notions of the specification, calibration -/

/-- The sum of the `k` values `f start`, `f (start + 1)`, ... a sensor delivers
from its read number `start` on. -/
def sumFrom {α : Type} [Add α] [Zero α] (f : Nat → α) : Nat → Nat → α
  | _, 0 => 0
  | start, k + 1 => f start + sumFrom f (start + 1) k

/-- The estimated battery voltage `E` of the specification for an average ADC
reading `A`: `(A / 4095) * 3.3 * ((R1 + R2) / R2)` with `R1 = R2 = 10000`. -/
def batteryEstimate (A : ℚ) : ℚ := A / 4095 * (33 / 10) * ((10000 + 10000) / 10000)

/-- The ADC samples of a device as integers. -/
def adcValue (d : Device) (i : Nat) : Int := ((d.adc i).val : Int)

/-- Whether an integer is a value of the 32-bit type `long`. -/
def isLong (x : Int) : Prop := -2 ^ 31 ≤ x ∧ x < 2 ^ 31

/-- The scale factor the store holds after a tare, from what it held before:
1.0 for a missing or NaN factor, the factor itself otherwise. -/
def scaleAfterTare : Option Flt → Flt
  | none => Flt.num 1
  | some Flt.nan => Flt.num 1
  | some v => v

/-- A device for examples: zero 100000 stored, no scale factor, every read of
the HX711 giving 100500, every acceleration (1, 2, 3) and every ADC sample
2048. -/
def exampleDevice : Device :=
  { prefs := { longs := fun k => if k = K_ZERO then some 100000 else none
               floats := fun _ => none }
    hxReady := true
    hx := fun _ => 100500
    hxReads := 0
    mpuReady := true
    mpu := fun _ => (1, 2, 3)
    mpuReads := 0
    adc := fun _ => 2048
    adcReads := 0 }

/-- The example device with plus infinity stored as scale factor. -/
def infScaleDevice : Device :=
  { exampleDevice with
    prefs := { longs := exampleDevice.prefs.longs
               floats := fun k => if k = K_SCALE then some (Flt.inf false) else none } }

/-- The example device with NaN stored as scale factor. -/
def nanScaleDevice : Device :=
  { exampleDevice with
    prefs := { longs := exampleDevice.prefs.longs
               floats := fun k => if k = K_SCALE then some Flt.nan else none } }

/-! ## Lemmas on the navigator -/

theorem adjustScroll_window (scroll selected : Nat) :
    adjustScroll scroll selected ≤ selected ∧ selected ≤ adjustScroll scroll selected + 3 := by
  unfold adjustScroll
  simp only []
  split_ifs <;> omega

theorem menuDraw_currentItem (t : NodeId → MenuItem) (s : Navigator) :
    (menuDraw t s).currentItem = s.currentItem := rfl

theorem runAction_currentItem (t : NodeId → MenuItem) (s : Navigator) (a : Action) :
    (runAction t s a).currentItem = s.currentItem := by
  unfold runAction
  simp only []
  split_ifs <;> rfl

theorem lastSibling_mono (t : NodeId → MenuItem) :
    ∀ (f g : Nat) (n l : NodeId), f ≤ g → lastSibling t f n = .ok l →
      lastSibling t g n = .ok l := by
  intro f
  induction f with
  | zero => intro g n l _ h; simp [lastSibling] at h
  | succ f ih =>
    intro g n l hfg h
    obtain ⟨g, rfl⟩ : ∃ k, g = k + 1 := ⟨g - 1, by omega⟩
    simp only [lastSibling] at h ⊢
    cases hn : (t n).next with
    | none => simpa [hn] using h
    | some m =>
      simp only [hn] at h ⊢
      exact ih g m l (by omega) h

theorem menuUpdate_fuel_mono (t : NodeId → MenuItem) (f g : Nat) (s s' : Navigator)
    (b : Button) (hfg : f ≤ g) (h : menuUpdate t f s b = .ok s') :
    menuUpdate t g s b = .ok s' := by
  unfold menuUpdate at h ⊢
  by_cases hb : b = BTN_NONE
  · simpa [hb] using h
  · simp only [hb, if_false] at h ⊢
    cases hc : s.currentItem with
    | none => simp [hc] at h
    | some cur =>
      simp only [hc] at h ⊢
      cases hf : (t ((t cur).parent.getD root)).child with
      | none => simp [hf] at h
      | some first =>
        simp only [hf] at h ⊢
        cases hl : lastSibling t f first with
        | error e => simp [hl] at h
        | ok last =>
          rw [lastSibling_mono t f g first last hfg hl]
          simpa [hl] using h

theorem menuRun_fuel_mono (t : NodeId → MenuItem) (f g : Nat) (hfg : f ≤ g) :
    ∀ (bs : List Button) (s s' : Navigator), menuRun t f s bs = .ok s' →
      menuRun t g s bs = .ok s' := by
  intro bs
  induction bs with
  | nil => intro s s' h; simpa [menuRun] using h
  | cons b rest ih =>
    intro s s' h
    simp only [menuRun] at h ⊢
    cases hu : menuUpdate t f s b with
    | error e => simp [hu] at h
    | ok s1 =>
      rw [menuUpdate_fuel_mono t f g s s1 b hfg hu]
      simp only [hu] at h
      exact ih s1 s' h

theorem menuUpdate_curOf_congr (t : NodeId → MenuItem) (fuel : Nat) (s1 s2 : Navigator)
    (b : Button) (h : s1.currentItem = s2.currentItem) :
    curOf (menuUpdate t fuel s1 b) = curOf (menuUpdate t fuel s2 b) := by
  unfold menuUpdate
  rw [h]
  split_ifs
  · simp [curOf, h]
  · cases s2.currentItem with
    | none => rfl
    | some cur =>
      simp only []
      cases (t ((t cur).parent.getD root)).child with
      | none => rfl
      | some first =>
        simp only []
        cases lastSibling t fuel first with
        | error e => rfl
        | ok last =>
          cases b
          · simp [curOf, h]
          · simp [curOf, menuDraw_currentItem]
          · simp [curOf, menuDraw_currentItem]
          · cases (t cur).action with
            | some a => simp [curOf, runAction_currentItem, h]
            | none =>
              cases (t cur).child with
              | some c => simp [curOf, menuDraw_currentItem]
              | none => simp [curOf, h]
          · cases (t cur).parent with
            | some p => simp [curOf, menuDraw_currentItem]
            | none => simp [curOf, h]

theorem menuRun_curOf_congr (t : NodeId → MenuItem) (fuel : Nat) :
    ∀ (bs : List Button) (s1 s2 : Navigator), s1.currentItem = s2.currentItem →
      curOf (menuRun t fuel s1 bs) = curOf (menuRun t fuel s2 bs) := by
  intro bs
  induction bs with
  | nil => intro s1 s2 h; simp [menuRun, curOf, h]
  | cons b rest ih =>
    intro s1 s2 h
    have hstep := menuUpdate_curOf_congr t fuel s1 s2 b h
    simp only [menuRun]
    cases h1 : menuUpdate t fuel s1 b with
    | error e1 =>
      cases h2 : menuUpdate t fuel s2 b with
      | error e2 => simpa [h1, h2, curOf] using hstep
      | ok u2 => simp [h1, h2, curOf] at hstep
    | ok u1 =>
      cases h2 : menuUpdate t fuel s2 b with
      | error e2 => simp [h1, h2, curOf] at hstep
      | ok u2 =>
        simp only [h1, h2, curOf] at hstep
        exact ih u1 u2 (by simpa using hstep)

/-- The selection reached from any state by a run is the one reached from the
state with the same selection, scroll 0 and no output, at any sufficient fuel. -/
theorem menuRun_curOf_reduce (t : NodeId → MenuItem) (f g : Nat) (hfg : f ≤ g)
    (bs : List Button) (s : Navigator) (r : Option NodeId)
    (h : curOf (menuRun t f ⟨s.currentItem, 0, []⟩ bs) = .ok r) :
    curOf (menuRun t g s bs) = .ok r := by
  cases h0 : menuRun t f ⟨s.currentItem, 0, []⟩ bs with
  | error e => simp [h0, curOf] at h
  | ok s0 =>
    have h1 := menuRun_fuel_mono t f g hfg bs _ s0 h0
    rw [menuRun_curOf_congr t g bs s ⟨s.currentItem, 0, []⟩ rfl, h1]
    simpa [h0] using h

theorem menuRun_single (t : NodeId → MenuItem) (fuel : Nat) (s : Navigator) (b : Button) :
    menuRun t fuel s [b] = menuUpdate t fuel s b := by
  simp only [menuRun]
  cases menuUpdate t fuel s b <;> rfl

theorem curOf_ok (r : Except Fault Navigator) (c : Option NodeId) (h : curOf r = .ok c) :
    ∃ s, r = .ok s ∧ s.currentItem = c := by
  cases r with
  | error e => simp [curOf] at h
  | ok s => exact ⟨s, rfl, by simpa [curOf] using h⟩

/-- The walk of `menuUpdate` from the first top-level entry ends at `m_back`. -/
theorem lastSibling_top (fuel : Nat) (hf : 10 ≤ fuel) :
    lastSibling menuItems fuel m_status = .ok m_back :=
  lastSibling_mono menuItems 10 fuel m_status m_back hf (by decide)

/-- For the main list and the root, `selectedIndex` is the rank in the chain. -/
theorem selectedIndex_eq_siblingIndex :
    ∀ n ∈ root :: menuList, selectedIndex (some n) = siblingIndex menuItems n := by
  decide

theorem menuDraw_window (s : Navigator) (n : NodeId) (hc : s.currentItem = some n)
    (hn : n ∈ root :: menuList) : scrollWindow menuItems (menuDraw menuItems s) := by
  intro m hm
  rw [menuDraw_currentItem, hc] at hm
  cases hm
  have hw := adjustScroll_window s.scroll (selectedIndex (some n))
  rw [selectedIndex_eq_siblingIndex n hn] at hw
  simpa [menuDraw, hc, selectedIndex_eq_siblingIndex n hn] using hw

/-- One step from a navigable selection stays navigable. -/
theorem menuUpdate_navigable (fuel : Nat) (hf : 10 ≤ fuel) (s : Navigator) (n : NodeId)
    (hc : s.currentItem = some n) (hn : n ∈ root :: menuList) (b : Button) :
    ∃ s' m, menuUpdate menuItems fuel s b = .ok s' ∧ s'.currentItem = some m ∧
      m ∈ root :: menuList := by
  have key : ∀ n ∈ root :: menuList, ∀ b : Button, ∃ m ∈ root :: menuList,
      curOf (menuRun menuItems 10 ⟨some n, 0, []⟩ [b]) = .ok (some m) := by decide
  obtain ⟨m, hm, hk⟩ := key n hn b
  have h1 := menuRun_curOf_reduce menuItems 10 fuel hf [b] s (some m) (by rw [hc]; exact hk)
  rw [menuRun_single] at h1
  obtain ⟨s', hs', hcur⟩ := curOf_ok _ _ h1
  exact ⟨s', m, hs', hcur, hm⟩

/-- A step that changes the selection ends in a redraw. -/
theorem menuUpdate_redraw (t : NodeId → MenuItem) (fuel : Nat) (s s' : Navigator)
    (n : NodeId) (b : Button) (hc : s.currentItem = some n)
    (hb : changesSelection t n b = true) (h : menuUpdate t fuel s b = .ok s') :
    ∃ m, s' = menuDraw t { s with currentItem := some m } := by
  unfold menuUpdate at h
  by_cases hnone : b = BTN_NONE
  · subst hnone; simp [changesSelection] at hb
  · simp only [hnone, if_false, hc] at h
    cases hf : (t ((t n).parent.getD root)).child with
    | none => simp [hf] at h
    | some first =>
      simp only [hf] at h
      cases hl : lastSibling t fuel first with
      | error e => simp [hl] at h
      | ok last =>
        simp only [hl] at h
        cases b with
        | BTN_NONE => exact absurd rfl hnone
        | BTN_UP_PRESSED => exact ⟨_, by simpa using h.symm⟩
        | BTN_DOWN_PRESSED => exact ⟨_, by simpa using h.symm⟩
        | BTN_BACK_PRESSED =>
          cases hp : (t n).parent with
          | none => simp [changesSelection, hp] at hb
          | some p => exact ⟨p, by simpa [hp] using h.symm⟩
        | BTN_SELECT_PRESSED =>
          cases ha : (t n).action with
          | some a => simp [changesSelection, ha] at hb
          | none =>
            cases hch : (t n).child with
            | none => simp [changesSelection, ha, hch] at hb
            | some c => exact ⟨c, by simpa [ha, hch] using h.symm⟩

/-! ## Properties of the navigator -/

/-- With the root or one of the ten entries of the list of `menuDraw` current,
the scroll window holds after `menuDraw` for every prior scroll value, and
after every `menuUpdate` step that changes the selection. -/
theorem scrollWindow_navigable (s : Navigator) (n : NodeId)
    (hc : s.currentItem = some n) (hn : n ∈ root :: menuList) :
    scrollWindow menuItems (menuDraw menuItems s) ∧
    ∀ (fuel : Nat) (b : Button), 10 ≤ fuel → changesSelection menuItems n b = true →
      ∃ s', menuUpdate menuItems fuel s b = .ok s' ∧ scrollWindow menuItems s' := by
  refine ⟨menuDraw_window s n hc hn, ?_⟩
  intro fuel b hf hb
  obtain ⟨s', m, hs', hcur, hm⟩ := menuUpdate_navigable fuel hf s n hc hn b
  refine ⟨s', hs', ?_⟩
  obtain ⟨m', rfl⟩ := menuUpdate_redraw menuItems fuel s s' n b hc hb hs'
  rw [menuDraw_currentItem] at hcur
  exact menuDraw_window _ m hcur hm

/-- The top-level chain has ten entries, and from each of them ten `DOWN`
events handled by `menuUpdate` lead back to it. -/
theorem down_cycle_main (s : Navigator) (n : NodeId) (fuel : Nat)
    (hc : s.currentItem = some n) (hn : n ∈ menuList) (hf : 10 ≤ fuel) :
    siblingChain menuItems n = menuList ∧
    ∃ s', menuRun menuItems fuel s
        (List.replicate (siblingChain menuItems n).length BTN_DOWN_PRESSED) = .ok s' ∧
      s'.currentItem = some n := by
  have key : ∀ n ∈ menuList, siblingChain menuItems n = menuList ∧
      curOf (menuRun menuItems 10 ⟨some n, 0, []⟩
        (List.replicate (siblingChain menuItems n).length BTN_DOWN_PRESSED)) = .ok (some n) := by
    decide
  obtain ⟨h1, h2⟩ := key n hn
  refine ⟨h1, ?_⟩
  exact curOf_ok _ _ (menuRun_curOf_reduce menuItems 10 fuel hf _ s (some n) (by rw [hc]; exact h2))

/-- From each of the ten top-level entries, `DOWN` then `UP` and `UP` then
`DOWN`, handled by `menuUpdate`, both lead back to the entry. -/
theorem up_down_inverse_main (s : Navigator) (n : NodeId) (fuel : Nat)
    (hc : s.currentItem = some n) (hn : n ∈ menuList) (hf : 10 ≤ fuel) :
    (∃ s', menuRun menuItems fuel s [BTN_DOWN_PRESSED, BTN_UP_PRESSED] = .ok s' ∧
      s'.currentItem = some n) ∧
    (∃ s', menuRun menuItems fuel s [BTN_UP_PRESSED, BTN_DOWN_PRESSED] = .ok s' ∧
      s'.currentItem = some n) := by
  have key : ∀ n ∈ menuList,
      curOf (menuRun menuItems 10 ⟨some n, 0, []⟩ [BTN_DOWN_PRESSED, BTN_UP_PRESSED])
        = .ok (some n) ∧
      curOf (menuRun menuItems 10 ⟨some n, 0, []⟩ [BTN_UP_PRESSED, BTN_DOWN_PRESSED])
        = .ok (some n) := by
    decide
  obtain ⟨h1, h2⟩ := key n hn
  exact ⟨curOf_ok _ _ (menuRun_curOf_reduce menuItems 10 fuel hf _ s _ (by rw [hc]; exact h1)),
    curOf_ok _ _ (menuRun_curOf_reduce menuItems 10 fuel hf _ s _ (by rw [hc]; exact h2))⟩

/-- With a node current whose parent has its first child, `BACK` sets
`current` to exactly that parent and redraws. -/
theorem back_to_parent_main (s : Navigator) (n p : NodeId) (fuel : Nat)
    (hc : s.currentItem = some n) (hp : (menuItems n).parent = some p)
    (hch : (menuItems p).child ≠ none) (hf : 10 ≤ fuel) :
    menuUpdate menuItems fuel s BTN_BACK_PRESSED
      = .ok (menuDraw menuItems { s with currentItem := some p }) ∧
    (menuDraw menuItems { s with currentItem := some p }).currentItem
      = (menuItems n).parent := by
  have hroot : p = root := by
    revert hp hch
    cases n <;> cases p <;> simp [menuItems]
  subst hroot
  refine ⟨?_, by rw [menuDraw_currentItem, hp]⟩
  have hfirst : (menuItems root).child = some m_status := rfl
  simp [menuUpdate, hc, hp, hfirst, lastSibling_top fuel hf]

/-- C5 (as amended): `BACK` is a no-op, with `current` unchanged and nothing
drawn, when `current` is the root; from each of the ten top-level entries,
whose parent is the root, `BACK` sets `current` to the root and redraws. -/
theorem C5_back_at_top (s : Navigator) (n : NodeId) (fuel : Nat)
    (hc : s.currentItem = some n) (hf : 10 ≤ fuel) :
    (n = root → menuUpdate menuItems fuel s BTN_BACK_PRESSED = .ok s) ∧
    (n ∈ menuList → menuUpdate menuItems fuel s BTN_BACK_PRESSED
      = .ok (menuDraw menuItems { s with currentItem := some root })) := by
  have hfirst : (menuItems root).child = some m_status := rfl
  constructor
  · intro hn
    subst hn
    have hp : (menuItems root).parent = none := rfl
    simp [menuUpdate, hc, hp, hfirst, lastSibling_top fuel hf]
  · intro hn
    have hp : (menuItems n).parent = some root := by
      revert hn
      cases n <;> simp [menuList, menuItems]
    simp [menuUpdate, hc, hp, hfirst, lastSibling_top fuel hf]

/-- C5, an instance: `BACK` with the root selected changes nothing. -/
theorem C5_back_at_top_witness :
    menuUpdate menuItems 10 ⟨some root, 0, []⟩ BTN_BACK_PRESSED = .ok ⟨some root, 0, []⟩ :=
  (C5_back_at_top ⟨some root, 0, []⟩ root 10 rfl (by decide)).1 rfl

/-- C5 as stated fails: right after `menuInit`, with the status entry
selected, `BACK` makes the root the current node and draws the menu. -/
theorem C5_counterexample_status :
    menuUpdate menuItems 10 menuInit BTN_BACK_PRESSED
      = .ok (menuDraw menuItems ⟨some root, 0, []⟩) ∧
    (menuDraw menuItems ⟨some root, 0, []⟩).currentItem ≠ menuInit.currentItem ∧
    (menuDraw menuItems ⟨some root, 0, []⟩).out ≠ menuInit.out := by
  decide

/-- The three cases of `SELECT` for a node whose walk to the last sibling
starts: the action runs and the node stays current; or the child is entered
and the menu redrawn; or nothing changes. -/
theorem select_cases_main (s : Navigator) (n : NodeId) (fuel : Nat)
    (hc : s.currentItem = some n)
    (hw : (menuItems (((menuItems n).parent).getD root)).child ≠ none) (hf : 10 ≤ fuel) :
    (∀ a, (menuItems n).action = some a →
      menuUpdate menuItems fuel s BTN_SELECT_PRESSED = .ok (runAction menuItems s a) ∧
      (runAction menuItems s a).currentItem = some n ∧
      Effect.action a ∈ (runAction menuItems s a).out) ∧
    (∀ c, (menuItems n).action = none → (menuItems n).child = some c →
      menuUpdate menuItems fuel s BTN_SELECT_PRESSED
        = .ok (menuDraw menuItems { s with currentItem := some c })) ∧
    ((menuItems n).action = none → (menuItems n).child = none →
      menuUpdate menuItems fuel s BTN_SELECT_PRESSED = .ok s) ∧
    (∃ s', menuUpdate menuItems fuel s BTN_SELECT_PRESSED = .ok s' ∧
      (s'.currentItem = (menuItems n).child ↔
        (menuItems n).action = none ∧ (menuItems n).child ≠ none)) := by
  have hfirst : (menuItems (((menuItems n).parent).getD root)).child = some m_status := by
    revert hw
    cases n <;> simp [menuItems]
  have hlast := lastSibling_top fuel hf
  have hA : ∀ a, (menuItems n).action = some a →
      menuUpdate menuItems fuel s BTN_SELECT_PRESSED = .ok (runAction menuItems s a) := by
    intro a ha
    simp [menuUpdate, hc, hfirst, hlast, ha]
  have hB : ∀ c, (menuItems n).action = none → (menuItems n).child = some c →
      menuUpdate menuItems fuel s BTN_SELECT_PRESSED
        = .ok (menuDraw menuItems { s with currentItem := some c }) := by
    intro c ha hchild
    simp [menuUpdate, hc, hfirst, hlast, ha, hchild]
  have hC : (menuItems n).action = none → (menuItems n).child = none →
      menuUpdate menuItems fuel s BTN_SELECT_PRESSED = .ok s := by
    intro ha hchild
    simp [menuUpdate, hc, hfirst, hlast, ha, hchild]
  refine ⟨?_, hB, hC, ?_⟩
  · intro a ha
    refine ⟨hA a ha, by rw [runAction_currentItem, hc], ?_⟩
    unfold runAction
    simp only []
    split_ifs <;> simp [menuDraw]
  · cases ha : (menuItems n).action with
    | some a =>
      refine ⟨_, hA a ha, ?_⟩
      rw [runAction_currentItem, hc]
      have hne : some n ≠ (menuItems n).child := by
        cases n <;> simp [menuItems]
      simp [hne]
    | none =>
      cases hchild : (menuItems n).child with
      | some c => exact ⟨_, hB c ha hchild, by simp [menuDraw_currentItem]⟩
      | none => exact ⟨_, hC ha hchild, by simp [hc]⟩

/-- C7: after `menuInit`, every finite sequence of button events is handled by
`menuUpdate` without a fault: the run returns a state, its `current` is
present, the node taken as parent there has its first child, and the walk from
that child to the last sibling ends. -/
theorem C7_no_transition_fails (events : List Button) (fuel : Nat) (hf : 10 ≤ fuel) :
    ∃ s' n first last, menuRun menuItems fuel menuInit events = .ok s' ∧
      s'.currentItem = some n ∧
      (menuItems (((menuItems n).parent).getD root)).child = some first ∧
      lastSibling menuItems fuel first = .ok last := by
  have gen : ∀ (events : List Button) (s : Navigator) (n : NodeId),
      s.currentItem = some n → n ∈ root :: menuList →
      ∃ s' m, menuRun menuItems fuel s events = .ok s' ∧ s'.currentItem = some m ∧
        m ∈ root :: menuList := by
    intro events
    induction events with
    | nil => intro s n hc hn; exact ⟨s, n, rfl, hc, hn⟩
    | cons b rest ih =>
      intro s n hc hn
      obtain ⟨s1, m, h1, hc1, hm⟩ := menuUpdate_navigable fuel hf s n hc hn b
      obtain ⟨s2, k, h2, hc2, hk⟩ := ih s1 m hc1 hm
      exact ⟨s2, k, by simp [menuRun, h1, h2], hc2, hk⟩
  obtain ⟨s', m, hrun, hcur, hm⟩ := gen events menuInit m_status rfl (by decide)
  have hfirst : (menuItems (((menuItems m).parent).getD root)).child = some m_status := by
    revert hm
    cases m <;> simp [menuList, menuItems]
  exact ⟨s', m, m_status, m_back, hrun, hcur, hfirst, lastSibling_top fuel hf⟩

/-- C7, an instance: a run that wraps upwards, leaves to the root, comes back
and selects. -/
theorem C7_no_transition_fails_witness :
    ∃ s' n first last,
      menuRun menuItems 10 menuInit
        [BTN_UP_PRESSED, BTN_BACK_PRESSED, BTN_NONE, BTN_SELECT_PRESSED, BTN_DOWN_PRESSED]
        = .ok s' ∧
      s'.currentItem = some n ∧
      (menuItems (((menuItems n).parent).getD root)).child = some first ∧
      lastSibling menuItems 10 first = .ok last :=
  C7_no_transition_fails _ 10 (by decide)

/-! ## Lemmas on the calibration engine -/

theorem hx_readLoop_prefs (k : Nat) :
    ∀ (d : Device) (sum : Int), (hx_readLoop d k sum).2.prefs = d.prefs := by
  induction k with
  | zero => intro d sum; rfl
  | succ k ih => intro d sum; simp only [hx_readLoop]; rw [ih]

theorem hx_readAverage_prefs (d : Device) (samples : Fin 256) :
    (hx_readAverage d samples).2.prefs = d.prefs := by
  unfold hx_readAverage
  simp only []
  split_ifs <;> exact hx_readLoop_prefs _ _ _

/-- C8: with the HX711 ready, `R` the averaged reading, `Z` the stored zero
(0 when missing), `R != Z` and `R - Z` within the range of `long`,
`calibration_calibrateOnePoint` returns true, stores the scale factor
`W / (R - Z)`, keeps the zero, and `calibration_computeWeightFromRaw(R)` is
then `W` (exact arithmetic). -/
theorem C8_one_point_round_trip (d : Device) (W : ℚ) (samples : Fin 256)
    (hready : d.hxReady = true)
    (hne : (hx_readAverage d samples).1 ≠ d.prefs.getLong K_ZERO 0)
    (hfit : wrap32 ((hx_readAverage d samples).1 - d.prefs.getLong K_ZERO 0)
      = (hx_readAverage d samples).1 - d.prefs.getLong K_ZERO 0) :
    (calibration_calibrateOnePoint d (Flt.num W) samples).1 = true ∧
    (calibration_calibrateOnePoint d (Flt.num W) samples).2.prefs.floats K_SCALE
      = some (Flt.num (W / ((hx_readAverage d samples).1 - d.prefs.getLong K_ZERO 0))) ∧
    (calibration_calibrateOnePoint d (Flt.num W) samples).2.prefs.getLong K_ZERO 0
      = d.prefs.getLong K_ZERO 0 ∧
    calibration_computeWeightFromRaw (calibration_calibrateOnePoint d (Flt.num W) samples).2
      (hx_readAverage d samples).1 = Flt.num W := by
  set R := (hx_readAverage d samples).1 with hR
  set Z := d.prefs.getLong K_ZERO 0 with hZ
  have hdiff : (R : ℚ) - (Z : ℚ) ≠ 0 := by
    have : R - Z ≠ 0 := sub_ne_zero.mpr hne
    exact_mod_cast this
  have hres : calibration_calibrateOnePoint d (Flt.num W) samples
      = (true, { (hx_readAverage d samples).2 with
          prefs := ((hx_readAverage d samples).2.prefs.putFloat K_SCALE
            (Flt.num (W / ((R : ℚ) - (Z : ℚ))))).putLong K_ZERO Z }) := by
    unfold calibration_calibrateOnePoint
    simp only [hready, ← hR, ← hZ, hfit]
    simp [hne, Flt.div, Flt.ofInt, hdiff]
  rw [hres]
  refine ⟨rfl, ?_, ?_, ?_⟩
  · simp [Prefs.putLong, Prefs.putFloat]
  · simp [Prefs.putLong, Prefs.getLong]
  · unfold calibration_computeWeightFromRaw
    simp only [Prefs.putLong, Prefs.putFloat, Prefs.getLong, Prefs.getFloat, if_true, hfit]
    by_cases hW : W = 0
    · simp [Flt.isZero, hW]
    · have : W / ((R : ℚ) - (Z : ℚ)) ≠ 0 := div_ne_zero hW hdiff
      simp only [Flt.isZero, this, decide_False, Flt.mul, Flt.ofInt]
      simp
      field_simp

/-- C8, the instance of the specification: `W = 5.0`, `Z = 100000` and
`R = 100500` give the scale factor `0.01` and the converted weight `5.0`. -/
theorem C8_one_point_round_trip_witness :
    (hx_readAverage exampleDevice 32).1 = 100500 ∧
    exampleDevice.prefs.getLong K_ZERO 0 = 100000 ∧
    (calibration_calibrateOnePoint exampleDevice (Flt.num 5) 32).1 = true ∧
    (calibration_calibrateOnePoint exampleDevice (Flt.num 5) 32).2.prefs.floats K_SCALE
      = some (Flt.num (1 / 100)) ∧
    calibration_computeWeightFromRaw
      (calibration_calibrateOnePoint exampleDevice (Flt.num 5) 32).2 100500 = Flt.num 5 := by
  have hR : (hx_readAverage exampleDevice 32).1 = 100500 := by decide
  have hZ : exampleDevice.prefs.getLong K_ZERO 0 = 100000 := by decide
  have h := C8_one_point_round_trip exampleDevice 5 32 rfl (by decide) (by decide)
  rw [hR, hZ] at h
  norm_num at h
  exact ⟨hR, hZ, h.1, h.2.1, h.2.2.2⟩

/-- C9: whatever the store and the reference weight, when the averaged reading
equals the stored zero (0 when missing) `calibration_calibrateOnePoint`
returns false and leaves the store as it was; the stored scale factor in
particular is the one stored before. -/
theorem C9_one_point_rejects_zero_span (d : Device) (knownWeightKg : Flt) (samples : Fin 256)
    (hraw : (hx_readAverage d samples).1 = d.prefs.getLong K_ZERO 0) :
    (calibration_calibrateOnePoint d knownWeightKg samples).1 = false ∧
    (calibration_calibrateOnePoint d knownWeightKg samples).2.prefs = d.prefs ∧
    (calibration_calibrateOnePoint d knownWeightKg samples).2.prefs.floats K_SCALE
      = d.prefs.floats K_SCALE := by
  have hres : (calibration_calibrateOnePoint d knownWeightKg samples).1 = false ∧
      (calibration_calibrateOnePoint d knownWeightKg samples).2.prefs = d.prefs := by
    unfold calibration_calibrateOnePoint
    by_cases hready : d.hxReady = false
    · simp [hready]
    · simp [hready, hraw, hx_readAverage_prefs]
  exact ⟨hres.1, hres.2, by rw [hres.2]⟩

/-- C9, an instance: the stored zero is 100000 and every read gives 100000. -/
theorem C9_one_point_rejects_zero_span_witness :
    (calibration_calibrateOnePoint { exampleDevice with hx := fun _ => 100000 }
      (Flt.num 5) 32).1 = false :=
  (C9_one_point_rejects_zero_span { exampleDevice with hx := fun _ => 100000 }
    (Flt.num 5) 32 (by decide)).1

/-- C10: for every raw value and every store,
`calibration_computeWeightFromRaw(raw)` is the product of `raw - zero`, as the
code forms it in a `long`, and the stored scale factor, a missing zero and a
missing scale factor being read as 0; `raw - zero` is the exact difference
whenever that fits a `long`. With a stored scale factor of exactly zero, or
none, the result is 0 for every `raw`. The result is a number whenever the
stored scale factor is a number: no quotient is taken. -/
theorem C10_weight_conversion (d : Device) (raw : Int) :
    calibration_computeWeightFromRaw d raw
      = Flt.mul (Flt.ofInt (wrap32 (raw - (d.prefs.longs K_ZERO).getD 0)))
          ((d.prefs.floats K_SCALE).getD (Flt.num 0)) ∧
    (wrap32 (raw - (d.prefs.longs K_ZERO).getD 0) = raw - (d.prefs.longs K_ZERO).getD 0 →
      calibration_computeWeightFromRaw d raw
        = Flt.mul (Flt.ofInt (raw - (d.prefs.longs K_ZERO).getD 0))
            ((d.prefs.floats K_SCALE).getD (Flt.num 0))) ∧
    ((d.prefs.floats K_SCALE).getD (Flt.num 0) = Flt.num 0 →
      calibration_computeWeightFromRaw d raw = Flt.num 0) ∧
    (∀ q : ℚ, (d.prefs.floats K_SCALE).getD (Flt.num 0) = Flt.num q →
      ∃ r : ℚ, calibration_computeWeightFromRaw d raw = Flt.num r) := by
  have hz : d.prefs.getLong K_ZERO 0 = (d.prefs.longs K_ZERO).getD 0 := by
    unfold Prefs.getLong
    cases d.prefs.longs K_ZERO <;> rfl
  have hs : d.prefs.getFloat K_SCALE (Flt.num 0) = (d.prefs.floats K_SCALE).getD (Flt.num 0) := by
    unfold Prefs.getFloat
    cases d.prefs.floats K_SCALE <;> rfl
  unfold calibration_computeWeightFromRaw
  simp only [hz, hs]
  generalize (d.prefs.floats K_SCALE).getD (Flt.num 0) = scale
  generalize (d.prefs.longs K_ZERO).getD 0 = zero
  have hprod : (if scale.isZero = true then Flt.num 0
      else Flt.mul (Flt.ofInt (wrap32 (raw - zero))) scale)
      = Flt.mul (Flt.ofInt (wrap32 (raw - zero))) scale := by
    cases scale with
    | nan => simp [Flt.isZero]
    | inf b => simp [Flt.isZero]
    | num q =>
      by_cases hq : q = 0
      · simp [Flt.isZero, hq, Flt.mul, Flt.ofInt]
      · simp [Flt.isZero, hq]
  refine ⟨hprod, ?_, ?_, ?_⟩
  · intro hfit
    rw [hprod, hfit]
  · intro h0
    simp [h0, Flt.isZero]
  · intro q hq0
    subst hq0
    by_cases hq : q = 0
    · exact ⟨0, by simp [Flt.isZero, hq]⟩
    · exact ⟨(wrap32 (raw - zero) : ℚ) * q, by simp [Flt.isZero, hq, Flt.mul, Flt.ofInt]⟩

/-- C10, an instance: zero 100000 and no scale factor stored, so every raw
value converts to 0. -/
theorem C10_weight_conversion_uncalibrated :
    calibration_computeWeightFromRaw exampleDevice 123456 = Flt.num 0 :=
  (C10_weight_conversion exampleDevice 123456).2.2.1 rfl

/-! ## Lemmas on sampling -/

theorem wrap32_of_isLong (x : Int) (h : isLong x) : wrap32 x = x := by
  unfold isLong at h
  unfold wrap32
  omega

theorem sumFrom_bounds (f : Nat → Int) (lo hi : Int) :
    ∀ (k start : Nat), (∀ i, i < k → lo ≤ f (start + i) ∧ f (start + i) ≤ hi) →
      (k : Int) * lo ≤ sumFrom f start k ∧ sumFrom f start k ≤ (k : Int) * hi := by
  intro k
  induction k with
  | zero => intro start _; simp [sumFrom]
  | succ k ih =>
    intro start h
    have h0 := h 0 (by omega)
    have hrest := ih (start + 1) (fun i hi => by
      have := h (i + 1) (by omega)
      rwa [show start + 1 + i = start + (i + 1) by omega])
    simp only [sumFrom, Nat.add_zero] at h0 ⊢
    push_cast
    constructor <;> nlinarith [h0.1, h0.2, hrest.1, hrest.2]

theorem tdiv_between (S lo hi : Int) (n : Nat) (hn : 1 ≤ n)
    (h1 : (n : Int) * lo ≤ S) (h2 : S ≤ (n : Int) * hi) :
    lo ≤ Int.tdiv S n ∧ Int.tdiv S n ≤ hi := by
  have hpos : (0 : Int) < n := by exact_mod_cast hn
  rcases le_or_lt 0 S with hS | hS
  · rw [Int.tdiv_eq_ediv hS (le_of_lt hpos)]
    constructor
    · rcases le_or_lt lo 0 with hlo | hlo
      · exact le_trans hlo (Int.ediv_nonneg hS (le_of_lt hpos))
      · exact Int.le_ediv_of_mul_le hpos (by nlinarith)
    · exact Int.ediv_le_of_le_mul hpos (by nlinarith)
  · have hneg : (0 : Int) ≤ -S := by omega
    have e : Int.tdiv S n = -((-S) / (n : Int)) := by
      rw [← Int.tdiv_eq_ediv hneg (le_of_lt hpos), Int.neg_tdiv, neg_neg]
    rw [e]
    have hq : 0 ≤ (-S) / (n : Int) := Int.ediv_nonneg hneg (le_of_lt hpos)
    constructor
    · have : (-S) / (n : Int) ≤ -lo := Int.ediv_le_of_le_mul hpos (by nlinarith)
      omega
    · rcases le_or_lt 0 hi with hhi | hhi
      · omega
      · have : -hi ≤ (-S) / (n : Int) := Int.le_ediv_of_mul_le hpos (by nlinarith)
        omega

theorem hx_readLoop_eq (k : Nat) :
    ∀ (d : Device) (sum : Int), hx_readLoop d k sum
      = (sum + sumFrom d.hx d.hxReads k, { d with hxReads := d.hxReads + k }) := by
  induction k with
  | zero => intro d sum; simp [hx_readLoop, sumFrom]
  | succ k ih =>
    intro d sum
    simp only [hx_readLoop, ih, sumFrom]
    refine Prod.ext (by simp [add_assoc]) ?_
    simp [Nat.add_assoc, Nat.add_comm 1 k]

theorem hx_readAverage_device (d : Device) (samples : Fin 256) :
    (hx_readAverage d samples).2 = { d with hxReads := d.hxReads + samples.val } := by
  unfold hx_readAverage
  simp only [hx_readLoop_eq]
  split_ifs <;> rfl

/-- The value of `hx_readAverage`: the sum of the samples divided by their
number, truncated toward zero, when there is a sample and every sample is a
`long`; it lies between any two bounds of the samples. -/
theorem hx_readAverage_value (d : Device) (samples : Fin 256) (hn : 1 ≤ samples.val)
    (hl : ∀ i, i < samples.val → isLong (d.hx (d.hxReads + i))) :
    (hx_readAverage d samples).1 = Int.tdiv (sumFrom d.hx d.hxReads samples.val) samples.val ∧
    ∀ lo hi : Int, (∀ i, i < samples.val → lo ≤ d.hx (d.hxReads + i) ∧ d.hx (d.hxReads + i) ≤ hi) →
      lo ≤ (hx_readAverage d samples).1 ∧ (hx_readAverage d samples).1 ≤ hi := by
  have hne : samples.val ≠ 0 := by omega
  have hval : (hx_readAverage d samples).1
      = wrap32 (Int.tdiv (sumFrom d.hx d.hxReads samples.val) samples.val) := by
    unfold hx_readAverage
    simp [hx_readLoop_eq, hne]
  have hb : ∀ lo hi : Int,
      (∀ i, i < samples.val → lo ≤ d.hx (d.hxReads + i) ∧ d.hx (d.hxReads + i) ≤ hi) →
      lo ≤ Int.tdiv (sumFrom d.hx d.hxReads samples.val) samples.val ∧
      Int.tdiv (sumFrom d.hx d.hxReads samples.val) samples.val ≤ hi := by
    intro lo hi h
    have hs := sumFrom_bounds d.hx lo hi samples.val d.hxReads h
    exact tdiv_between _ lo hi samples.val hn hs.1 hs.2
  have hlong : isLong (Int.tdiv (sumFrom d.hx d.hxReads samples.val) samples.val) := by
    have := hb (-2 ^ 31) (2 ^ 31 - 1) (fun i hi => by
      have := hl i hi
      unfold isLong at this
      omega)
    unfold isLong
    omega
  rw [hval, wrap32_of_isLong _ hlong]
  exact ⟨rfl, hb⟩

/-- The state `calibration_tareScale` leaves when the HX711 is ready. -/
theorem calibration_tareScale_ready (d : Device) (samples : Fin 256)
    (hready : d.hxReady = true) :
    calibration_tareScale d samples
      = (true, { (hx_readAverage d samples).2 with
          prefs :=
            { longs := fun k => if k = K_ZERO then some (hx_readAverage d samples).1
                else d.prefs.longs k
              floats := fun k =>
                if k = K_SCALE then some (scaleAfterTare (d.prefs.floats K_SCALE))
                else d.prefs.floats k } }) := by
  unfold calibration_tareScale
  simp only [hready, Bool.true_eq_false, if_false, hx_readAverage_prefs]
  refine Prod.ext rfl ?_
  simp only [Prefs.putLong, Prefs.getFloat]
  cases hs : d.prefs.floats K_SCALE with
  | none => simp [Flt.isNan, Prefs.putFloat, scaleAfterTare]
  | some v =>
    have keep : (fun k => if k = K_SCALE then some v else d.prefs.floats k)
        = d.prefs.floats := by
      funext k
      by_cases hk : k = K_SCALE
      · simp [hk, hs]
      · simp [hk]
    cases v with
    | nan => simp [Flt.isNan, Prefs.putFloat, scaleAfterTare]
    | inf b =>
      simp only [Flt.isNan, Bool.false_eq_true, if_false, scaleAfterTare]
      rw [keep]
    | num q =>
      simp only [Flt.isNan, Bool.false_eq_true, if_false, scaleAfterTare]
      rw [keep]

/-- C11 (as amended): a tare with the HX711 ready succeeds and stores the
averaged reading `Z` as zero; `calibration_computeWeightFromRaw(Z)` is then 0
for every finite scale factor stored before and when none or NaN was stored;
with an infinite scale factor stored, which the tare keeps, it is NaN. -/
theorem C11_tare_then_weight_zero (d : Device) (samples : Fin 256)
    (hready : d.hxReady = true) :
    (calibration_tareScale d samples).1 = true ∧
    (calibration_tareScale d samples).2.prefs.longs K_ZERO
      = some (hx_readAverage d samples).1 ∧
    ((∀ b, d.prefs.floats K_SCALE ≠ some (Flt.inf b)) →
      calibration_computeWeightFromRaw (calibration_tareScale d samples).2
        (hx_readAverage d samples).1 = Flt.num 0) ∧
    (∀ b, d.prefs.floats K_SCALE = some (Flt.inf b) →
      (calibration_tareScale d samples).2.prefs.floats K_SCALE = some (Flt.inf b) ∧
      calibration_computeWeightFromRaw (calibration_tareScale d samples).2
        (hx_readAverage d samples).1 = Flt.nan) := by
  rw [calibration_tareScale_ready d samples hready]
  have hw : wrap32 0 = 0 := by decide
  refine ⟨rfl, by simp, ?_, ?_⟩
  · intro hfin
    unfold calibration_computeWeightFromRaw
    simp only [Prefs.getLong, Prefs.getFloat, if_true, sub_self, hw]
    cases hs : d.prefs.floats K_SCALE with
    | none => simp [scaleAfterTare, Flt.isZero, Flt.mul, Flt.ofInt]
    | some v =>
      cases v with
      | nan => simp [scaleAfterTare, Flt.isZero, Flt.mul, Flt.ofInt]
      | inf b => exact absurd hs (hfin b)
      | num q =>
        by_cases hq : q = 0
        · simp [scaleAfterTare, Flt.isZero, hq]
        · simp [scaleAfterTare, Flt.isZero, hq, Flt.mul, Flt.ofInt]
  · intro b hs
    refine ⟨by simp [hs, scaleAfterTare], ?_⟩
    unfold calibration_computeWeightFromRaw
    simp only [Prefs.getLong, Prefs.getFloat, if_true, sub_self, hw]
    simp [hs, scaleAfterTare, Flt.isZero, Flt.mul, Flt.ofInt]

/-- C11, an instance: a tare on the example device, where no scale factor is
stored, followed by the conversion of the new zero 100500. -/
theorem C11_tare_then_weight_zero_witness :
    calibration_computeWeightFromRaw (calibration_tareScale exampleDevice 32).2
      (hx_readAverage exampleDevice 32).1 = Flt.num 0 :=
  (C11_tare_then_weight_zero exampleDevice 32 rfl).2.2.1 (by
    intro b h
    simp [exampleDevice] at h)

/-- C11 as stated fails: with plus infinity stored as scale factor the tare
succeeds, keeps the factor, and the conversion of the new zero is
`float(0) * inf`, which is NaN and not 0. -/
theorem C11_counterexample_stored_inf :
    infScaleDevice.prefs.floats K_SCALE = some (Flt.inf false) ∧
    (calibration_tareScale infScaleDevice 32).1 = true ∧
    (calibration_tareScale infScaleDevice 32).2.prefs.longs K_ZERO
      = some (hx_readAverage infScaleDevice 32).1 ∧
    calibration_computeWeightFromRaw (calibration_tareScale infScaleDevice 32).2
      (hx_readAverage infScaleDevice 32).1 = Flt.nan ∧
    calibration_computeWeightFromRaw (calibration_tareScale infScaleDevice 32).2
      (hx_readAverage infScaleDevice 32).1 ≠ Flt.num 0 := by
  have h := calibration_tareScale_ready infScaleDevice 32 rfl
  have h0 : infScaleDevice.prefs.floats K_SCALE = some (Flt.inf false) := rfl
  have hw : wrap32 0 = 0 := by decide
  have hc : calibration_computeWeightFromRaw (calibration_tareScale infScaleDevice 32).2
      (hx_readAverage infScaleDevice 32).1 = Flt.nan := by
    rw [h]
    unfold calibration_computeWeightFromRaw
    simp only [Prefs.getLong, Prefs.getFloat, if_true, sub_self, hw]
    simp [h0, scaleAfterTare, Flt.isZero, Flt.mul, Flt.ofInt]
  refine ⟨h0, by rw [h], ?_, hc, ?_⟩
  · rw [h]
    simp
  · rw [hc]
    simp

/-- C12 (as amended): a tare with the HX711 ready succeeds, stores as zero the
value `hx_readAverage` returns (the truncated average of the samples when
there is one and all are `long` values), and touches no other `long` key. It
writes the scale factor 1.0 exactly when the scale factor read back is NaN,
which is when none was stored or the stored one is NaN; any other stored
factor is left as it is, and no other `float` key is touched. -/
theorem C12_tare_frame (d : Device) (samples : Fin 256) (hready : d.hxReady = true) :
    (calibration_tareScale d samples).1 = true ∧
    (calibration_tareScale d samples).2.prefs.longs K_ZERO
      = some (hx_readAverage d samples).1 ∧
    (1 ≤ samples.val → (∀ i, i < samples.val → isLong (d.hx (d.hxReads + i))) →
      (calibration_tareScale d samples).2.prefs.longs K_ZERO
        = some (Int.tdiv (sumFrom d.hx d.hxReads samples.val) samples.val)) ∧
    (∀ k, k ≠ K_ZERO →
      (calibration_tareScale d samples).2.prefs.longs k = d.prefs.longs k) ∧
    ((d.prefs.floats K_SCALE = none ∨ d.prefs.floats K_SCALE = some Flt.nan) →
      (calibration_tareScale d samples).2.prefs.floats K_SCALE = some (Flt.num 1)) ∧
    (∀ v, d.prefs.floats K_SCALE = some v → v ≠ Flt.nan →
      (calibration_tareScale d samples).2.prefs.floats K_SCALE = some v) ∧
    (∀ k, k ≠ K_SCALE →
      (calibration_tareScale d samples).2.prefs.floats k = d.prefs.floats k) := by
  rw [calibration_tareScale_ready d samples hready]
  refine ⟨rfl, by simp, ?_, ?_, ?_, ?_, ?_⟩
  · intro hn hl
    simp [(hx_readAverage_value d samples hn hl).1]
  · intro k hk
    simp [hk]
  · rintro (h | h) <;> simp [h, scaleAfterTare]
  · intro v h hv
    cases v with
    | nan => exact absurd rfl hv
    | inf b => simp [h, scaleAfterTare]
    | num q => simp [h, scaleAfterTare]
  · intro k hk
    simp [hk]

/-- C12, an instance: on the example device, which stores no scale factor, the
tare writes the zero 100500 and the scale factor 1.0. -/
theorem C12_tare_frame_witness :
    (calibration_tareScale exampleDevice 32).2.prefs.longs K_ZERO = some 100500 ∧
    (calibration_tareScale exampleDevice 32).2.prefs.floats K_SCALE = some (Flt.num 1) := by
  have h := C12_tare_frame exampleDevice 32 rfl
  have hR : (hx_readAverage exampleDevice 32).1 = 100500 := by decide
  exact ⟨by rw [h.2.1, hR], h.2.2.2.2.1 (Or.inl rfl)⟩

/-- C12 as stated fails: with NaN stored as scale factor, the tare reads it
back, finds it NaN and overwrites it with 1.0. -/
theorem C12_counterexample_stored_nan :
    nanScaleDevice.prefs.floats K_SCALE = some Flt.nan ∧
    (calibration_tareScale nanScaleDevice 32).1 = true ∧
    (calibration_tareScale nanScaleDevice 32).2.prefs.floats K_SCALE = some (Flt.num 1) ∧
    (calibration_tareScale nanScaleDevice 32).2.prefs.floats K_SCALE
      ≠ nanScaleDevice.prefs.floats K_SCALE := by
  have h := calibration_tareScale_ready nanScaleDevice 32 rfl
  have h0 : nanScaleDevice.prefs.floats K_SCALE = some Flt.nan := rfl
  have h1 : (calibration_tareScale nanScaleDevice 32).2.prefs.floats K_SCALE
      = some (Flt.num 1) := by
    rw [h]
    simp [h0, scaleAfterTare]
  refine ⟨h0, by rw [h], h1, ?_⟩
  rw [h1, h0]
  simp

/-- C13: with the weight sensor not ready, `calibration_tareScale` and
`calibration_calibrateOnePoint` return false, and with the motion sensor not
ready `calibration_calibrateAccelZero` returns false; each leaves the whole
state as it was: the store, and the read counts of the sensors, so that no
sample is read. -/
theorem C13_not_ready_atomic (d : Device) (knownWeightKg : Flt) (samples : Fin 256) :
    (d.hxReady = false →
      calibration_tareScale d samples = (false, d) ∧
      calibration_calibrateOnePoint d knownWeightKg samples = (false, d)) ∧
    (d.mpuReady = false → calibration_calibrateAccelZero d samples = (false, d)) := by
  constructor
  · intro h
    simp [calibration_tareScale, calibration_calibrateOnePoint, h]
  · intro h
    simp [calibration_calibrateAccelZero, h]

/-- C13, an instance: the example device with both sensors down. -/
theorem C13_not_ready_atomic_witness :
    (calibration_tareScale { exampleDevice with hxReady := false, mpuReady := false } 32).1
      = false ∧
    (calibration_calibrateAccelZero
      { exampleDevice with hxReady := false, mpuReady := false } 128).1 = false := by
  have h := C13_not_ready_atomic { exampleDevice with hxReady := false, mpuReady := false }
    (Flt.num 5) 32
  have h2 := C13_not_ready_atomic { exampleDevice with hxReady := false, mpuReady := false }
    (Flt.num 5) 128
  exact ⟨by rw [(h.1 rfl).1], by rw [h2.2 rfl]⟩

/-- C20: `calibration_readScaleRaw` never changes the store. With the sensor
not ready it returns 0 and reads nothing; with no sample asked for it returns
0; with the sensor ready and at least one sample, all of them `long` values,
it returns their sum divided by their number, truncated toward zero, a value
between any lower and any upper bound of the samples. -/
theorem C20_read_scale_raw (d : Device) (samples : Fin 256) :
    (calibration_readScaleRaw d samples).2.prefs = d.prefs ∧
    (d.hxReady = false → calibration_readScaleRaw d samples = (0, d)) ∧
    (samples.val = 0 → (calibration_readScaleRaw d samples).1 = 0) ∧
    (d.hxReady = true → 1 ≤ samples.val →
      (∀ i, i < samples.val → isLong (d.hx (d.hxReads + i))) →
      (calibration_readScaleRaw d samples).1
        = Int.tdiv (sumFrom d.hx d.hxReads samples.val) samples.val ∧
      (calibration_readScaleRaw d samples).2
        = { d with hxReads := d.hxReads + samples.val } ∧
      ∀ lo hi : Int,
        (∀ i, i < samples.val → lo ≤ d.hx (d.hxReads + i) ∧ d.hx (d.hxReads + i) ≤ hi) →
        lo ≤ (calibration_readScaleRaw d samples).1 ∧
        (calibration_readScaleRaw d samples).1 ≤ hi) := by
  refine ⟨?_, ?_, ?_, ?_⟩
  · unfold calibration_readScaleRaw
    split_ifs
    · rfl
    · exact hx_readAverage_prefs d samples
  · intro h
    simp [calibration_readScaleRaw, h]
  · intro h
    unfold calibration_readScaleRaw
    split_ifs
    · rfl
    · simp [hx_readAverage, h]
  · intro hready hn hl
    have he : calibration_readScaleRaw d samples = hx_readAverage d samples := by
      simp [calibration_readScaleRaw, hready]
    rw [he]
    exact ⟨(hx_readAverage_value d samples hn hl).1, hx_readAverage_device d samples,
      (hx_readAverage_value d samples hn hl).2⟩

/-- C20, an instance: three reads 10, -3 and -12 give the sum -5 and the
average -1, the quotient truncating toward zero. -/
theorem C20_read_scale_raw_witness :
    (calibration_readScaleRaw
      { exampleDevice with hx := fun i => if i = 0 then 10 else if i = 1 then -3 else -12 }
      3).1 = -1 := by
  have h := (C20_read_scale_raw
    { exampleDevice with hx := fun i => if i = 0 then 10 else if i = 1 then -3 else -12 }
    3).2.2.2 rfl (by decide) (by
      intro i hi
      have h3 : i < 3 := hi
      interval_cases i <;> simp [isLong, exampleDevice])
  rw [h.1]
  decide

/-! ## Lemmas on the battery and the accelerometer -/

theorem adc_sumLoop_eq (k : Nat) :
    ∀ (d : Device) (sum : Int), adc_sumLoop d k sum
      = (sum + sumFrom (adcValue d) d.adcReads k, { d with adcReads := d.adcReads + k }) := by
  induction k with
  | zero => intro d sum; simp [adc_sumLoop, sumFrom]
  | succ k ih =>
    intro d sum
    simp only [adc_sumLoop, ih, sumFrom]
    refine Prod.ext ?_ ?_
    · simp only [adcValue]
      rw [add_assoc]
      rfl
    · simp [Nat.add_assoc, Nat.add_comm 1 k]

theorem vbatMeasured_eq (sum : Int) (samples : Fin 256) (hn : 1 ≤ samples.val) :
    vbatMeasured sum samples = Flt.num (batteryEstimate ((sum : ℚ) / (samples.val : ℚ))) := by
  have hne : ((samples.val : Int) : ℚ) ≠ 0 := by
    have : (samples.val : Int) ≠ 0 := by omega
    exact_mod_cast this
  unfold vbatMeasured batteryEstimate
  simp only [Flt.ofInt, Flt.div, hne, if_false, ADC_MAX, VREF, R1, R2, Flt.add, Flt.mul]
  norm_num

/-- C14: let `A` be the average of the `N >= 1` ADC samples
`calibration_calibrateBattery` reads and `E = (A / 4095) * 3.3 * 2` exceed
`0.0001`. Then the call returns true and stores the factor `known / E`, and a
following `calibration_readBatteryVoltage` over `M >= 1` samples of the same
average returns `E * (known / E) = known` (exact arithmetic). -/
theorem C14_battery_round_trip (d : Device) (known : ℚ) (N M : Fin 256)
    (hN : 1 ≤ N.val) (hM : 1 ≤ M.val)
    (hsame : ((sumFrom (adcValue d) (d.adcReads + N.val) M.val : Int) : ℚ) / (M.val : ℚ)
      = ((sumFrom (adcValue d) d.adcReads N.val : Int) : ℚ) / (N.val : ℚ))
    (hE : 1 / 10000
      < batteryEstimate (((sumFrom (adcValue d) d.adcReads N.val : Int) : ℚ) / (N.val : ℚ))) :
    (calibration_calibrateBattery d (Flt.num known) N).1 = true ∧
    (calibration_calibrateBattery d (Flt.num known) N).2.prefs.floats K_BATT_FACTOR
      = some (Flt.num (known
          / batteryEstimate (((sumFrom (adcValue d) d.adcReads N.val : Int) : ℚ) / (N.val : ℚ)))) ∧
    (calibration_readBatteryVoltage (calibration_calibrateBattery d (Flt.num known) N).2 M).1
      = Flt.num (batteryEstimate
          (((sumFrom (adcValue d) d.adcReads N.val : Int) : ℚ) / (N.val : ℚ))
        * (known / batteryEstimate
          (((sumFrom (adcValue d) d.adcReads N.val : Int) : ℚ) / (N.val : ℚ)))) ∧
    (calibration_readBatteryVoltage (calibration_calibrateBattery d (Flt.num known) N).2 M).1
      = Flt.num known := by
  set E := batteryEstimate (((sumFrom (adcValue d) d.adcReads N.val : Int) : ℚ) / (N.val : ℚ))
    with hEdef
  have hEpos : E ≠ 0 := by
    intro h0
    rw [h0] at hE
    norm_num at hE
  have hcal : calibration_calibrateBattery d (Flt.num known) N
      = (true, { d with
          adcReads := d.adcReads + N.val
          prefs := d.prefs.putFloat K_BATT_FACTOR (Flt.num (known / E)) }) := by
    unfold calibration_calibrateBattery
    simp only [adc_sumLoop_eq, zero_add, vbatMeasured_eq _ N hN, ← hEdef, Flt.gt, hE,
      decide_True, if_true, Flt.div, hEpos, if_false]
  have hread : ∀ d1 : Device, d1.adc = d.adc → d1.adcReads = d.adcReads + N.val →
      d1.prefs.floats K_BATT_FACTOR = some (Flt.num (known / E)) →
      (calibration_readBatteryVoltage d1 M).1 = Flt.num (E * (known / E)) := by
    intro d1 h1 h2 h3
    have hadc : adcValue d1 = adcValue d := by
      funext i
      simp [adcValue, h1]
    unfold calibration_readBatteryVoltage
    simp only [adc_sumLoop_eq, zero_add, vbatMeasured_eq _ M hM, hadc, h2, hsame, ← hEdef,
      Prefs.getFloat, h3, Flt.mul]
  have hr := hread (calibration_calibrateBattery d (Flt.num known) N).2
    (by rw [hcal]) (by rw [hcal]) (by rw [hcal]; simp [Prefs.putFloat])
  refine ⟨by rw [hcal], by rw [hcal]; simp [Prefs.putFloat], hr, ?_⟩
  rw [hr]
  congr 1
  field_simp

/-- C14, the instance of the specification: eight samples 2048 and the known
voltage 3.0 give `E` about 3.30 and the factor about 0.909, and the read
returns 3.0. -/
theorem C14_battery_round_trip_witness :
    (calibration_calibrateBattery exampleDevice (Flt.num 3) 8).2.prefs.floats K_BATT_FACTOR
      = some (Flt.num (3 / batteryEstimate 2048)) ∧
    (calibration_readBatteryVoltage
      (calibration_calibrateBattery exampleDevice (Flt.num 3) 8).2 8).1 = Flt.num 3 ∧
    (330 / 100 < batteryEstimate 2048 ∧ batteryEstimate 2048 < 331 / 100) ∧
    (908 / 1000 < 3 / batteryEstimate 2048 ∧ 3 / batteryEstimate 2048 < 909 / 1000) := by
  have h8 : (8 : Fin 256).val = 8 := rfl
  have hA : ((sumFrom (adcValue exampleDevice) exampleDevice.adcReads (8 : Fin 256).val : Int) : ℚ)
      / ((8 : Fin 256).val : ℚ) = 2048 := by
    have : sumFrom (adcValue exampleDevice) exampleDevice.adcReads (8 : Fin 256).val
        = 16384 := by decide
    rw [this, h8]
    norm_num
  have hB : ((sumFrom (adcValue exampleDevice)
      (exampleDevice.adcReads + (8 : Fin 256).val) (8 : Fin 256).val : Int) : ℚ)
      / ((8 : Fin 256).val : ℚ) = 2048 := by
    have : sumFrom (adcValue exampleDevice)
        (exampleDevice.adcReads + (8 : Fin 256).val) (8 : Fin 256).val = 16384 := by decide
    rw [this, h8]
    norm_num
  have h := C14_battery_round_trip exampleDevice 3 8 8 (by decide) (by decide)
    (by rw [hA, hB]) (by rw [hA]; norm_num [batteryEstimate])
  rw [hA] at h
  exact ⟨h.2.1, h.2.2.2, by norm_num [batteryEstimate], by norm_num [batteryEstimate]⟩

theorem climb_depth : ∀ (k : Nat) (n m : NodeId), climb menuItems k n = some m →
    menuDepth m + k = menuDepth n := by
  intro k
  induction k with
  | zero =>
    intro n m h
    simp only [climb, Option.some.injEq] at h
    simp [h]
  | succ k ih =>
    intro n m h
    simp only [climb] at h
    cases hp : (menuItems n).parent with
    | none => simp [hp] at h
    | some p =>
      simp only [hp] at h
      have h1 := ih p m h
      have h2 : menuDepth p + 1 = menuDepth n := by
        revert hp
        cases n <;> cases p <;> simp [menuItems, menuDepth]
      omega

/-- C16, the code at the failing pair: `cal_root.next` is the tare entry while
the tare entry has no `prev`; for every other pair of nodes `a.next = b`
exactly when `b.prev = a`. -/
theorem C16_next_prev_mismatch_cal_root :
    (menuItems cal_root).next = some m_cal_tare ∧
    (menuItems m_cal_tare).prev = none ∧
    ¬ ((menuItems cal_root).next = some m_cal_tare ↔
        (menuItems m_cal_tare).prev = some cal_root) ∧
    ∀ a b : NodeId, (a, b) ≠ (cal_root, m_cal_tare) →
      ((menuItems a).next = some b ↔ (menuItems b).prev = some a) := by
  decide

/-- C17, the code at the failing nodes: the save and back entries of the
calibration submenu are linked by `next` and `prev` but have the parents
`cal_root` and `root`; `cal_root`, whose parent is `root`, is linked by `next`
to the tare entry, whose parent is `cal_root`, so that the tare entry lies on
two chains; and `cal_root`, the parent of the chain that starts at the tare
entry, has no `child`. The top-level chain is as the claim says. -/
theorem C17_chain_parent_mismatch_cal :
    ((menuItems m_cal_save).next = some m_cal_back ∧
      (menuItems m_cal_back).prev = some m_cal_save ∧
      (menuItems m_cal_save).parent = some cal_root ∧
      (menuItems m_cal_back).parent = some root) ∧
    ((menuItems cal_root).next = some m_cal_tare ∧
      (menuItems cal_root).parent = some root ∧
      (menuItems m_cal_tare).parent = some cal_root ∧
      m_cal_tare ∈ siblingChain menuItems cal_root ∧
      m_cal_tare ∈ siblingChain menuItems m_cal_tare ∧
      siblingChain menuItems cal_root ≠ siblingChain menuItems m_cal_tare) ∧
    ((menuItems m_cal_tare).prev = none ∧ (menuItems cal_root).child = none) ∧
    (∀ n ∈ menuList, siblingChain menuItems n = menuList ∧
      (menuItems n).parent = some root ∧
      (menuItems root).child = menuList.head?) := by
  decide

/-- C18: in the tree of `menuInit` the root is the only node without a parent;
its child is the status entry, which has no predecessor and heads the
top-level chain; from every node at most two parent links lead to the root;
and no positive number of parent links leads from a node back to itself. -/
theorem C18_single_root :
    (∀ n : NodeId, (menuItems n).parent = none ↔ n = root) ∧
    (menuItems root).child = some m_status ∧
    (menuItems m_status).prev = none ∧
    siblingChain menuItems m_status = menuList ∧
    menuList.head? = some m_status ∧
    (∀ n : NodeId, ∃ k, k ≤ 2 ∧ climb menuItems k n = some root) ∧
    (∀ (n : NodeId) (k : Nat), 0 < k → climb menuItems k n ≠ some n) := by
  refine ⟨by decide, rfl, rfl, by decide, rfl, ?_, ?_⟩
  · intro n
    cases n
    case root => exact ⟨0, by decide, rfl⟩
    case m_cal_tare => exact ⟨2, by decide, rfl⟩
    case m_cal_cal => exact ⟨2, by decide, rfl⟩
    case m_cal_raw => exact ⟨2, by decide, rfl⟩
    case m_cal_save => exact ⟨2, by decide, rfl⟩
    all_goals exact ⟨1, by decide, rfl⟩
  · intro n k hk h
    have := climb_depth k n n h
    omega

/-- C19: the scroll offset `menuDraw` leaves is `adjustScroll` of the previous
offset `s` and the selected index `i`. It is `s` when `s <= i <= s + 3`, `i`
when `i < s`, and `i - 3` when `i > s + 3`; and no integer offset `k` with
`k <= i <= k + 3` is nearer to `s`. -/
theorem C19_scroll_minimal (t : NodeId → MenuItem) (st : Navigator) (s i : Nat) :
    (menuDraw t st).scroll = adjustScroll st.scroll (selectedIndex st.currentItem) ∧
    (s ≤ i → i ≤ s + 3 → adjustScroll s i = s) ∧
    (i < s → adjustScroll s i = i) ∧
    (s + 3 < i → adjustScroll s i = i - 3 ∧ 3 < i) ∧
    (adjustScroll s i ≤ i ∧ i ≤ adjustScroll s i + 3) ∧
    (∀ k : Int, k ≤ i → (i : Int) ≤ k + 3 →
      |(adjustScroll s i : Int) - s| ≤ |k - s|) := by
  refine ⟨rfl, ?_, ?_, ?_, adjustScroll_window s i, ?_⟩
  · intro h1 h2
    unfold adjustScroll
    simp only []
    split_ifs <;> omega
  · intro h1
    unfold adjustScroll
    simp only []
    split_ifs <;> omega
  · intro h1
    unfold adjustScroll
    simp only []
    split_ifs <;> omega
  · intro k h1 h2
    unfold adjustScroll
    simp only []
    split_ifs <;> (rw [abs_le]; constructor <;> (rcases abs_cases (k - (s : Int)) with h | h <;> omega))

/-! ## Frame of the one-point calibration, offsets, battery guard -/

/-- C21: when `calibration_calibrateOnePoint` returns true, the scale zero read
back after the call (0 for a missing key) is the one read before it, the key
then holds that value, no other `long` key is changed, and the only `float`
key changed is the scale factor, which is written. -/
theorem C21_one_point_zero_idempotent (d : Device) (knownWeightKg : Flt) (samples : Fin 256)
    (hok : (calibration_calibrateOnePoint d knownWeightKg samples).1 = true) :
    (calibration_calibrateOnePoint d knownWeightKg samples).2.prefs.getLong K_ZERO 0
      = d.prefs.getLong K_ZERO 0 ∧
    (calibration_calibrateOnePoint d knownWeightKg samples).2.prefs.longs K_ZERO
      = some (d.prefs.getLong K_ZERO 0) ∧
    (∀ k, k ≠ K_ZERO →
      (calibration_calibrateOnePoint d knownWeightKg samples).2.prefs.longs k
        = d.prefs.longs k) ∧
    (∀ k, k ≠ K_SCALE →
      (calibration_calibrateOnePoint d knownWeightKg samples).2.prefs.floats k
        = d.prefs.floats k) ∧
    (calibration_calibrateOnePoint d knownWeightKg samples).2.prefs.floats K_SCALE
      = some (Flt.div knownWeightKg (Flt.ofInt
          (wrap32 ((hx_readAverage d samples).1 - d.prefs.getLong K_ZERO 0)))) := by
  have hready : d.hxReady = true := by
    cases h : d.hxReady with
    | true => rfl
    | false => simp [calibration_calibrateOnePoint, h] at hok
  have hraw : (hx_readAverage d samples).1 ≠ d.prefs.getLong K_ZERO 0 := by
    intro h
    simp [calibration_calibrateOnePoint, hready, h] at hok
  have hres : calibration_calibrateOnePoint d knownWeightKg samples
      = (true, { (hx_readAverage d samples).2 with
          prefs := ((hx_readAverage d samples).2.prefs.putFloat K_SCALE
            (Flt.div knownWeightKg (Flt.ofInt
              (wrap32 ((hx_readAverage d samples).1 - d.prefs.getLong K_ZERO 0))))).putLong
            K_ZERO (d.prefs.getLong K_ZERO 0) }) := by
    unfold calibration_calibrateOnePoint
    simp [hready, hraw]
  rw [hres]
  simp only [hx_readAverage_prefs]
  refine ⟨?_, ?_, ?_, ?_, ?_⟩
  · simp [Prefs.putLong, Prefs.putFloat, Prefs.getLong]
  · simp [Prefs.putLong, Prefs.putFloat]
  · intro k hk
    simp [Prefs.putLong, Prefs.putFloat, hk]
  · intro k hk
    simp [Prefs.putLong, Prefs.putFloat, hk]
  · simp [Prefs.putLong, Prefs.putFloat]

/-- C21, an instance: the one-point calibration of the example device, whose
stored zero is 100000. -/
theorem C21_one_point_zero_idempotent_witness :
    (calibration_calibrateOnePoint exampleDevice (Flt.num 5) 32).2.prefs.getLong K_ZERO 0
      = 100000 := by
  have h := (C21_one_point_zero_idempotent exampleDevice (Flt.num 5) 32 (by decide)).1
  rw [h]
  decide

/-- C22: after `calibration_setTempOffset(v)` the temperature offset reads `v`
and the humidity offset reads what it read before; after
`calibration_setHumOffset(v)` the humidity offset reads `v` and the
temperature offset reads what it read before; an offset whose key is missing
reads 0.0. -/
theorem C22_offsets (d : Device) (v : Flt) :
    calibration_getTempOffset (calibration_setTempOffset d v) = v ∧
    calibration_getHumOffset (calibration_setTempOffset d v) = calibration_getHumOffset d ∧
    calibration_getHumOffset (calibration_setHumOffset d v) = v ∧
    calibration_getTempOffset (calibration_setHumOffset d v) = calibration_getTempOffset d ∧
    (d.prefs.floats K_TEMP_OFF = none → calibration_getTempOffset d = Flt.num 0) ∧
    (d.prefs.floats K_HUM_OFF = none → calibration_getHumOffset d = Flt.num 0) := by
  have hth : K_TEMP_OFF ≠ K_HUM_OFF := by decide
  have hht : K_HUM_OFF ≠ K_TEMP_OFF := by decide
  refine ⟨?_, ?_, ?_, ?_, ?_, ?_⟩
  · simp [calibration_getTempOffset, calibration_setTempOffset, Prefs.getFloat, Prefs.putFloat]
  · simp [calibration_getHumOffset, calibration_setTempOffset, Prefs.getFloat, Prefs.putFloat,
      hht]
  · simp [calibration_getHumOffset, calibration_setHumOffset, Prefs.getFloat, Prefs.putFloat]
  · simp [calibration_getTempOffset, calibration_setHumOffset, Prefs.getFloat, Prefs.putFloat,
      hth]
  · intro h
    simp [calibration_getTempOffset, Prefs.getFloat, h]
  · intro h
    simp [calibration_getHumOffset, Prefs.getFloat, h]

/-- C22, an instance: on the example device, where no offset is stored, the
humidity offset reads 0.0 after the temperature offset is set to 1.5. -/
theorem C22_offsets_witness :
    calibration_getTempOffset (calibration_setTempOffset exampleDevice (Flt.num (3 / 2)))
      = Flt.num (3 / 2) ∧
    calibration_getHumOffset (calibration_setTempOffset exampleDevice (Flt.num (3 / 2)))
      = Flt.num 0 := by
  have h := C22_offsets exampleDevice (Flt.num (3 / 2))
  exact ⟨h.1, by rw [h.2.1]; exact h.2.2.2.2.2 rfl⟩

/-- C24: for every known voltage and every batch of samples
`calibration_calibrateBattery` returns true and writes the battery factor and no
other key. With `E` the estimate `vbatMeasured` of the batch, the factor
written is `known / E` when `E > 0.0001` and 1.0 otherwise, NaN estimate
included; in the first case `E` is a number above 0.0001, so the quotient is
not one by zero. -/
theorem C24_battery_guard (d : Device) (knownVoltage : Flt) (samples : Fin 256) :
    (calibration_calibrateBattery d knownVoltage samples).1 = true ∧
    (calibration_calibrateBattery d knownVoltage samples).2.prefs.floats K_BATT_FACTOR
      = some (if Flt.gt (vbatMeasured (sumFrom (adcValue d) d.adcReads samples.val) samples)
                (Flt.num (1 / 10000)) = true
              then Flt.div knownVoltage
                (vbatMeasured (sumFrom (adcValue d) d.adcReads samples.val) samples)
              else Flt.num 1) ∧
    (∀ k, k ≠ K_BATT_FACTOR →
      (calibration_calibrateBattery d knownVoltage samples).2.prefs.floats k
        = d.prefs.floats k) ∧
    (calibration_calibrateBattery d knownVoltage samples).2.prefs.longs = d.prefs.longs ∧
    (Flt.gt (vbatMeasured (sumFrom (adcValue d) d.adcReads samples.val) samples)
        (Flt.num (1 / 10000)) = true →
      ∃ e : ℚ, vbatMeasured (sumFrom (adcValue d) d.adcReads samples.val) samples = Flt.num e ∧
        1 / 10000 < e ∧
        ∀ k : ℚ, knownVoltage = Flt.num k →
          (calibration_calibrateBattery d knownVoltage samples).2.prefs.floats K_BATT_FACTOR
            = some (Flt.num (k / e))) ∧
    (samples.val = 0 →
      (calibration_calibrateBattery d knownVoltage samples).2.prefs.floats K_BATT_FACTOR
        = some (Flt.num 1)) := by
  have hres : calibration_calibrateBattery d knownVoltage samples
      = (true, { d with
          adcReads := d.adcReads + samples.val
          prefs := d.prefs.putFloat K_BATT_FACTOR
            (if Flt.gt (vbatMeasured (sumFrom (adcValue d) d.adcReads samples.val) samples)
                (Flt.num (1 / 10000)) = true
              then Flt.div knownVoltage
                (vbatMeasured (sumFrom (adcValue d) d.adcReads samples.val) samples)
              else Flt.num 1) }) := by
    unfold calibration_calibrateBattery
    simp only [adc_sumLoop_eq, zero_add]
  rw [hres]
  refine ⟨rfl, by simp [Prefs.putFloat], ?_, rfl, ?_, ?_⟩
  · intro k hk
    simp [Prefs.putFloat, hk]
  · intro hgt
    have hnum : ∃ e : ℚ,
        vbatMeasured (sumFrom (adcValue d) d.adcReads samples.val) samples = Flt.num e := by
      by_cases h0 : samples.val = 0
      · have hv : vbatMeasured (sumFrom (adcValue d) d.adcReads samples.val) samples
            = Flt.nan := by
          simp [vbatMeasured, h0, sumFrom, Flt.ofInt, Flt.div, Flt.mul]
        simp [hv, Flt.gt] at hgt
      · exact ⟨_, vbatMeasured_eq _ samples (by omega)⟩
    obtain ⟨e, hv⟩ := hnum
    have he : 1 / 10000 < e := by simpa [hv, Flt.gt] using hgt
    refine ⟨e, hv, he, ?_⟩
    intro k hk
    have hne : e ≠ 0 := by
      intro h0
      rw [h0] at he
      norm_num at he
    have he1 : (10000 : ℚ)⁻¹ < e := by simpa using he
    simp [Prefs.putFloat, hv, hk, Flt.gt, he1, Flt.div, hne]
  · intro h0
    have hv : vbatMeasured (sumFrom (adcValue d) d.adcReads samples.val) samples = Flt.nan := by
      simp [vbatMeasured, h0, sumFrom, Flt.ofInt, Flt.div, Flt.mul]
    simp [Prefs.putFloat, hv, Flt.gt]

/-- C24, an instance: eight samples 0 give the estimate 0, and the factor
written is 1.0. -/
theorem C24_battery_guard_witness :
    (calibration_calibrateBattery { exampleDevice with adc := fun _ => 0 } (Flt.num 3)
      8).2.prefs.floats K_BATT_FACTOR = some (Flt.num 1) := by
  have h := (C24_battery_guard { exampleDevice with adc := fun _ => 0 } (Flt.num 3) 8).2.1
  rw [h]
  have hs : sumFrom (adcValue { exampleDevice with adc := fun _ => 0 })
      ({ exampleDevice with adc := fun _ => 0 } : Device).adcReads (8 : Fin 256).val = 0 := by
    decide
  rw [hs, vbatMeasured_eq 0 8 (by decide)]
  norm_num [Flt.gt, batteryEstimate]

/-! ## Debouncing of getButton -/

theorem getButton_skip (st : ButtonState) (now : Nat) (pins : Pins)
    (h1 : st.lastTime ≤ now) (_h2 : now < 2 ^ 32) (h3 : now < st.lastTime + 120) :
    getButton st now pins = (BTN_NONE, st) := by
  have hlt : (now + 2 ^ 32 - st.lastTime) % 2 ^ 32 < 120 := by omega
  unfold getButton
  rw [if_pos hlt]

theorem getButton_sample (st : ButtonState) (now : Nat) (pins : Pins)
    (h1 : st.lastTime + 120 ≤ now) (h2 : now < 2 ^ 32) :
    (getButton st now pins).2.lastTime = now ∧
    (getButton st now pins).2.sampled = st.sampled + 1 := by
  have hlt : ¬ (now + 2 ^ 32 - st.lastTime) % 2 ^ 32 < 120 := by omega
  unfold getButton
  rw [if_neg hlt]
  simp only []
  split_ifs <;> exact ⟨rfl, rfl⟩

theorem getButton_press (st : ButtonState) (now : Nat) (pins : Pins)
    (h1 : st.lastTime ≤ now) (h2 : now < 2 ^ 32)
    (hp : (getButton st now pins).1 ≠ BTN_NONE) :
    st.lastTime + 120 ≤ now ∧ (getButton st now pins).2.lastTime = now := by
  by_cases h3 : now < st.lastTime + 120
  · rw [getButton_skip st now pins h1 h2 h3] at hp
    exact absurd rfl hp
  · exact ⟨by omega, (getButton_sample st now pins (by omega) h2).1⟩

theorem getButton_lastTime (st : ButtonState) (now : Nat) (pins : Pins)
    (h1 : st.lastTime ≤ now) (h2 : now < 2 ^ 32) :
    st.lastTime ≤ (getButton st now pins).2.lastTime ∧
    (getButton st now pins).2.lastTime ≤ now := by
  by_cases h3 : now < st.lastTime + 120
  · rw [getButton_skip st now pins h1 h2 h3]
    exact ⟨le_refl _, h1⟩
  · rw [(getButton_sample st now pins (by omega) h2).1]
    exact ⟨h1, le_refl _⟩

/-- Every press reported in a run comes at least 120 ms after the `lastTime`
the run starts with. -/
theorem getButtonRun_after : ∀ (calls : List (Nat × Pins)) (st : ButtonState),
    (st.lastTime :: calls.map Prod.fst).Pairwise (· ≤ ·) →
    (∀ c ∈ calls, c.1 < 2 ^ 32) →
    ∀ x ∈ getButtonRun st calls, x.2 ≠ BTN_NONE → st.lastTime + 120 ≤ x.1 := by
  intro calls
  induction calls with
  | nil => intro st _ _ x hx; simp [getButtonRun] at hx
  | cons c rest ih =>
    intro st hs hr x hx hp
    simp only [List.map_cons, List.pairwise_cons, List.mem_cons, forall_eq_or_imp] at hs
    obtain ⟨⟨hc, hrest⟩, hc2, hp2⟩ := hs
    have hcr : c.1 < 2 ^ 32 := hr c (List.mem_cons_self _ _)
    have hlt := getButton_lastTime st c.1 c.2 hc hcr
    simp only [getButtonRun, List.mem_cons] at hx
    rcases hx with rfl | hx
    · exact (getButton_press st c.1 c.2 hc hcr hp).1
    · have := ih (getButton st c.1 c.2).2
        (by
          simp only [List.pairwise_cons]
          exact ⟨fun a ha => le_trans hlt.2 (hc2 a ha), hp2⟩)
        (fun c' hc' => hr c' (List.mem_cons_of_mem _ hc')) x hx hp
      omega

theorem getButtonRun_pairwise : ∀ (calls : List (Nat × Pins)) (st : ButtonState),
    (st.lastTime :: calls.map Prod.fst).Pairwise (· ≤ ·) →
    (∀ c ∈ calls, c.1 < 2 ^ 32) →
    (getButtonRun st calls).Pairwise
      (fun a b => a.2 ≠ BTN_NONE → b.2 ≠ BTN_NONE → a.1 + 120 ≤ b.1) := by
  intro calls
  induction calls with
  | nil => intro st _ _; simp [getButtonRun]
  | cons c rest ih =>
    intro st hs hr
    simp only [List.map_cons, List.pairwise_cons, List.mem_cons, forall_eq_or_imp] at hs
    obtain ⟨⟨hc, hrest⟩, hc2, hp2⟩ := hs
    have hcr : c.1 < 2 ^ 32 := hr c (List.mem_cons_self _ _)
    have hlt := getButton_lastTime st c.1 c.2 hc hcr
    have hs' : ((getButton st c.1 c.2).2.lastTime :: rest.map Prod.fst).Pairwise (· ≤ ·) := by
      simp only [List.pairwise_cons]
      exact ⟨fun a ha => le_trans hlt.2 (hc2 a ha), hp2⟩
    have hr' : ∀ c' ∈ rest, c'.1 < 2 ^ 32 := fun c' hc' => hr c' (List.mem_cons_of_mem _ hc')
    simp only [getButtonRun, List.pairwise_cons]
    refine ⟨?_, ih _ hs' hr'⟩
    intro x hx hp hpx
    have h1 := (getButton_press st c.1 c.2 hc hcr hp).2
    have h2 := getButtonRun_after rest (getButton st c.1 c.2).2 hs' hr' x hx hpx
    simp only at h1 h2 ⊢
    omega

/-- C23: with clock readings that never decrease and never wrap, a call of
`getButton` made less than 120 ms after `lastTime`, the reading of the previous
sampling call, returns NONE and leaves every static variable and the sample
count as they were; a call made 120 ms or more after it samples and sets
`lastTime` to its reading; and in every such sequence of calls any two calls
that report a press are at least 120 ms apart. -/
theorem C23_debounce (st : ButtonState) (calls : List (Nat × Pins))
    (hsorted : (st.lastTime :: calls.map Prod.fst).Pairwise (· ≤ ·))
    (hrange : ∀ c ∈ calls, c.1 < 2 ^ 32) :
    (∀ (st0 : ButtonState) (now : Nat) (pins : Pins), st0.lastTime ≤ now → now < 2 ^ 32 →
      now < st0.lastTime + 120 → getButton st0 now pins = (BTN_NONE, st0)) ∧
    (∀ (st0 : ButtonState) (now : Nat) (pins : Pins), st0.lastTime + 120 ≤ now →
      now < 2 ^ 32 →
      (getButton st0 now pins).2.lastTime = now ∧
      (getButton st0 now pins).2.sampled = st0.sampled + 1) ∧
    (getButtonRun st calls).Pairwise
      (fun a b => a.2 ≠ BTN_NONE → b.2 ≠ BTN_NONE → a.1 + 120 ≤ b.1) :=
  ⟨getButton_skip, getButton_sample, getButtonRun_pairwise calls st hsorted hrange⟩

/-- C23, an instance: calls at 100, 150, 200 and 300 ms after start, with UP
held from 150 ms to 200 ms and DOWN held at 300 ms. -/
theorem C23_debounce_witness :
    (getButtonRun buttonInit
      [(100, ⟨true, true, true, true⟩), (150, ⟨false, true, true, true⟩),
       (200, ⟨false, true, true, true⟩), (300, ⟨true, false, true, true⟩)]).Pairwise
      (fun a b => a.2 ≠ BTN_NONE → b.2 ≠ BTN_NONE → a.1 + 120 ≤ b.1) :=
  (C23_debounce buttonInit
    [(100, ⟨true, true, true, true⟩), (150, ⟨false, true, true, true⟩),
     (200, ⟨false, true, true, true⟩), (300, ⟨true, false, true, true⟩)]
    (by decide) (by decide)).2.2

/-! ## Rendered rows and reachable selections -/

/-- The rows drawn for a top-level entry at a scroll offset whose window holds
it: one selection marker, on the row of the entry, which shows its label; the
blank marker on every other row. -/
theorem drawRows_marker_main :
    ∀ n ∈ menuList, ∀ sc, sc < 10 → sc ≤ selectedIndex (some n) →
      selectedIndex (some n) ≤ sc + 3 →
      selectedLines (drawRows menuItems (some n) sc [0, 1, 2, 3])
        = [siblingIndex menuItems n - sc] ∧
      Effect.printLabel (siblingIndex menuItems n - sc) (menuItems n).text
        ∈ drawRows menuItems (some n) sc [0, 1, 2, 3] ∧
      blankLines (drawRows menuItems (some n) sc [0, 1, 2, 3])
        = (renderedLines (drawRows menuItems (some n) sc [0, 1, 2, 3])).filter
            (fun l => decide (l ≠ siblingIndex menuItems n - sc)) := by
  decide

/-- A run from a navigable selection ends on a navigable selection. -/
theorem menuRun_navigable (fuel : Nat) (hf : 10 ≤ fuel) :
    ∀ (events : List Button) (s : Navigator) (n : NodeId),
      s.currentItem = some n → n ∈ root :: menuList →
      ∃ s' m, menuRun menuItems fuel s events = .ok s' ∧ s'.currentItem = some m ∧
        m ∈ root :: menuList := by
  intro events
  induction events with
  | nil => intro s n hc hn; exact ⟨s, n, rfl, hc, hn⟩
  | cons b rest ih =>
    intro s n hc hn
    obtain ⟨s1, m, h1, hc1, hm⟩ := menuUpdate_navigable fuel hf s n hc hn b
    obtain ⟨s2, k, h2, hc2, hk⟩ := ih s1 m hc1 hm
    exact ⟨s2, k, by simp [menuRun, h1, h2], hc2, hk⟩

/-- C25 (as amended): a redraw with one of the ten top-level entries current
renders exactly one row with the selection marker, the row
`index(current) - scroll`, which shows the current entry, and every other
rendered row with the blank marker; a redraw with the root current renders
every row with the blank marker. Every transition of `menuUpdate` from the
root or a top-level entry that changes the selection ends in such a redraw,
of the root or of a top-level entry. -/
theorem C25_selection_marker (s : Navigator) (n : NodeId)
    (hc : s.currentItem = some n) (hn : n ∈ root :: menuList) :
    (menuDraw menuItems s).out
      = s.out ++ Effect.uiClear
          :: drawRows menuItems (some n) (menuDraw menuItems s).scroll [0, 1, 2, 3] ∧
    (n ∈ menuList →
      selectedLines (drawRows menuItems (some n) (menuDraw menuItems s).scroll [0, 1, 2, 3])
        = [siblingIndex menuItems n - (menuDraw menuItems s).scroll] ∧
      Effect.printLabel (siblingIndex menuItems n - (menuDraw menuItems s).scroll)
          (menuItems n).text
        ∈ drawRows menuItems (some n) (menuDraw menuItems s).scroll [0, 1, 2, 3] ∧
      blankLines (drawRows menuItems (some n) (menuDraw menuItems s).scroll [0, 1, 2, 3])
        = (renderedLines
            (drawRows menuItems (some n) (menuDraw menuItems s).scroll [0, 1, 2, 3])).filter
            (fun l => decide (l ≠ siblingIndex menuItems n - (menuDraw menuItems s).scroll))) ∧
    (n = root →
      selectedLines (drawRows menuItems (some n) (menuDraw menuItems s).scroll [0, 1, 2, 3])
        = [] ∧
      blankLines (drawRows menuItems (some n) (menuDraw menuItems s).scroll [0, 1, 2, 3])
        = renderedLines
            (drawRows menuItems (some n) (menuDraw menuItems s).scroll [0, 1, 2, 3])) ∧
    (∀ (fuel : Nat) (b : Button), 10 ≤ fuel → changesSelection menuItems n b = true →
      ∃ s' m, menuUpdate menuItems fuel s b = .ok s' ∧ m ∈ root :: menuList ∧
        s' = menuDraw menuItems { s with currentItem := some m }) := by
  have hscroll : (menuDraw menuItems s).scroll
      = adjustScroll s.scroll (selectedIndex (some n)) := by
    simp [menuDraw, hc]
  refine ⟨by simp [menuDraw, hc], ?_, ?_, ?_⟩
  · intro hm
    have hw := adjustScroll_window s.scroll (selectedIndex (some n))
    have hall : ∀ m ∈ menuList, selectedIndex (some m) < 10 := by decide
    have hidx : selectedIndex (some n) < 10 := hall n hm
    rw [hscroll]
    exact drawRows_marker_main n hm _ (by omega) hw.1 hw.2
  · intro hroot
    subst hroot
    have h0 : adjustScroll s.scroll (selectedIndex (some root)) = 0 := by
      have hw := adjustScroll_window s.scroll (selectedIndex (some root))
      have : selectedIndex (some root) = 0 := by decide
      omega
    rw [hscroll, h0]
    decide
  · intro fuel b hf hb
    obtain ⟨s', m, hs', hcur, hm⟩ := menuUpdate_navigable fuel hf s n hc hn b
    obtain ⟨m', rfl⟩ := menuUpdate_redraw menuItems fuel s s' n b hc hb hs'
    rw [menuDraw_currentItem] at hcur
    simp only [Option.some.injEq] at hcur
    subst hcur
    exact ⟨_, m', hs', hm, rfl⟩

/-- C25, an instance: drawing with the last entry selected from scroll 0 moves
the window to 6 and marks row 3. -/
theorem C25_selection_marker_witness :
    selectedLines (drawRows menuItems (some m_back)
      (menuDraw menuItems ⟨some m_back, 0, []⟩).scroll [0, 1, 2, 3]) = [3] := by
  have h := ((C25_selection_marker ⟨some m_back, 0, []⟩ m_back rfl (by decide)).2.1
    (by decide)).1
  rw [h]
  decide

/-- C25 as stated fails: right after `menuInit`, `BACK` makes the root current
and redraws; four rows are rendered and none carries the selection marker. -/
theorem C25_counterexample_back_to_root :
    menuUpdate menuItems 10 menuInit BTN_BACK_PRESSED
      = .ok (menuDraw menuItems ⟨some root, 0, []⟩) ∧
    (menuDraw menuItems ⟨some root, 0, []⟩).currentItem = some root ∧
    renderedLines (menuDraw menuItems ⟨some root, 0, []⟩).out = [0, 1, 2, 3] ∧
    blankLines (menuDraw menuItems ⟨some root, 0, []⟩).out = [0, 1, 2, 3] ∧
    selectedLines (menuDraw menuItems ⟨some root, 0, []⟩).out = [] := by
  decide

/-- C26: after `menuInit`, every finite sequence of button events leaves
`current` on the root or on one of the ten top-level entries, never on a node
of the calibration submenu. `SELECT` on the calibration entry, the one node
whose `child` leads into the submenu, runs `menuShowCalibration` and leaves
the entry current. -/
theorem C26_reachable_selections (events : List Button) (fuel : Nat) (hf : 10 ≤ fuel) :
    (∃ s' n, menuRun menuItems fuel menuInit events = .ok s' ∧ s'.currentItem = some n ∧
      (n = root ∨ n ∈ menuList) ∧
      n ∉ [cal_root, m_cal_tare, m_cal_cal, m_cal_raw, m_cal_save, m_cal_back]) ∧
    (menuItems m_calibration).child = some cal_root ∧
    (∀ s : Navigator, s.currentItem = some m_calibration →
      menuUpdate menuItems fuel s BTN_SELECT_PRESSED
        = .ok (runAction menuItems s menuShowCalibration) ∧
      (runAction menuItems s menuShowCalibration).currentItem = some m_calibration) := by
  refine ⟨?_, rfl, ?_⟩
  · obtain ⟨s', n, hrun, hcur, hn⟩ :=
      menuRun_navigable fuel hf events menuInit m_status rfl (by decide)
    refine ⟨s', n, hrun, hcur, ?_, ?_⟩
    · simpa using hn
    · have hall : ∀ m ∈ root :: menuList,
          m ∉ [cal_root, m_cal_tare, m_cal_cal, m_cal_raw, m_cal_save, m_cal_back] := by
        decide
      exact hall n hn
  · intro s hc
    have hfirst : (menuItems (((menuItems m_calibration).parent).getD root)).child
        = some m_status := rfl
    have ha : (menuItems m_calibration).action = some menuShowCalibration := rfl
    refine ⟨?_, by rw [runAction_currentItem, hc]⟩
    simp [menuUpdate, hc, hfirst, lastSibling_top fuel hf, ha]

/-- C26, an instance: entering and leaving the calibration screen and moving
on. -/
theorem C26_reachable_selections_witness :
    ∃ s' n, menuRun menuItems 10 menuInit
        [BTN_UP_PRESSED, BTN_UP_PRESSED, BTN_UP_PRESSED, BTN_UP_PRESSED, BTN_SELECT_PRESSED,
         BTN_DOWN_PRESSED, BTN_BACK_PRESSED] = .ok s' ∧
      s'.currentItem = some n ∧ (n = root ∨ n ∈ menuList) ∧
      n ∉ [cal_root, m_cal_tare, m_cal_cal, m_cal_raw, m_cal_save, m_cal_back] :=
  (C26_reachable_selections _ 10 (by decide)).1

/-! ## The navigator on the states it reaches -/

/-- Every run from the state `menuInit` leaves ends with the root or a
top-level entry current. -/
theorem menuRun_reaches (events : List Button) (fuel : Nat) (hf : 10 ≤ fuel) :
    ∃ s n, menuRun menuItems fuel menuInit events = .ok s ∧ s.currentItem = some n ∧
      n ∈ root :: menuList :=
  menuRun_navigable fuel hf events menuInit m_status rfl (by decide)

/-- The scroll window after `menuDraw` for every node but the back entry of
the calibration submenu. -/
theorem menuDraw_window_except_cal_back (s : Navigator) (n : NodeId)
    (hc : s.currentItem = some n) (hn : n ≠ m_cal_back) :
    scrollWindow menuItems (menuDraw menuItems s) := by
  by_cases hmain : n ∈ root :: menuList
  · exact menuDraw_window s n hc hmain
  · have key : ∀ m : NodeId, m ∉ root :: menuList → m ≠ m_cal_back →
        selectedIndex (some m) = 0 ∧ siblingIndex menuItems m ≤ 3 := by decide
    obtain ⟨h0, h3⟩ := key n hmain hn
    intro m hm
    rw [menuDraw_currentItem, hc] at hm
    cases hm
    have hw := adjustScroll_window s.scroll (selectedIndex (some n))
    have hsc : (menuDraw menuItems s).scroll
        = adjustScroll s.scroll (selectedIndex (some n)) := by
      simp [menuDraw, hc]
    rw [hsc]
    omega

/-- C1: after every `menuDraw`, whatever the prior scroll value, the scroll
offset satisfies `scroll <= index(current) <= scroll + 3`. The current node of
a draw is the one a sequence of button events has led to from `menuInit`: for
every such sequence and every value put in place of the scroll offset reached,
the window holds after `menuDraw`, and after every `UP`, `DOWN`, `BACK` or
child-entering `SELECT` handled by `menuUpdate`. The window after `menuDraw`
holds more generally for every node but the back entry of the calibration
submenu, which no sequence of events makes current. -/
theorem C1_scroll_window (events : List Button) (fuel : Nat) (hf : 10 ≤ fuel) :
    (∃ s n, menuRun menuItems fuel menuInit events = .ok s ∧ s.currentItem = some n ∧
      ∀ scroll : Nat,
        scrollWindow menuItems (menuDraw menuItems { s with scroll := scroll }) ∧
        ∀ b : Button, changesSelection menuItems n b = true →
          ∃ s', menuUpdate menuItems fuel { s with scroll := scroll } b = .ok s' ∧
            scrollWindow menuItems s') ∧
    (∀ (s0 : Navigator) (m : NodeId), s0.currentItem = some m → m ≠ m_cal_back →
      scrollWindow menuItems (menuDraw menuItems s0)) := by
  refine ⟨?_, menuDraw_window_except_cal_back⟩
  obtain ⟨s, n, hrun, hc, hn⟩ := menuRun_reaches events fuel hf
  refine ⟨s, n, hrun, hc, ?_⟩
  intro scroll
  have h := scrollWindow_navigable { s with scroll := scroll } n hc hn
  exact ⟨h.1, fun b hb => h.2 fuel b hf hb⟩

/-- C1, an instance: nine `DOWN` events lead to the last entry, where the
window has moved. -/
theorem C1_scroll_window_witness :
    ∃ s n, menuRun menuItems 10 menuInit (List.replicate 9 BTN_DOWN_PRESSED) = .ok s ∧
      s.currentItem = some n ∧
      ∀ scroll : Nat,
        scrollWindow menuItems (menuDraw menuItems { s with scroll := scroll }) ∧
        ∀ b : Button, changesSelection menuItems n b = true →
          ∃ s', menuUpdate menuItems 10 { s with scroll := scroll } b = .ok s' ∧
            scrollWindow menuItems s' :=
  (C1_scroll_window (List.replicate 9 BTN_DOWN_PRESSED) 10 (by decide)).1

/-- C2: whatever sequence of button events has been handled since `menuInit`,
when the node `n` then current is a node of a sibling chain, that is has a
parent, the chain is the top-level one and feeding `menuUpdate` the `DOWN`
event exactly `len(chain)` times leaves `current = n`. -/
theorem C2_down_cycle (events : List Button) (fuel : Nat) (hf : 10 ≤ fuel) :
    ∃ s n, menuRun menuItems fuel menuInit events = .ok s ∧ s.currentItem = some n ∧
      ((menuItems n).parent ≠ none →
        siblingChain menuItems n = menuList ∧
        ∃ s', menuRun menuItems fuel s
            (List.replicate (siblingChain menuItems n).length BTN_DOWN_PRESSED) = .ok s' ∧
          s'.currentItem = some n) := by
  obtain ⟨s, n, hrun, hc, hn⟩ := menuRun_reaches events fuel hf
  refine ⟨s, n, hrun, hc, ?_⟩
  intro hp
  have hmain : n ∈ menuList := by
    have key : ∀ m ∈ root :: menuList, (menuItems m).parent ≠ none → m ∈ menuList := by
      decide
    exact key n hn hp
  exact down_cycle_main s n fuel hc hmain hf

/-- C2, an instance: after three `DOWN` events and one `UP`. -/
theorem C2_down_cycle_witness :
    ∃ s n, menuRun menuItems 10 menuInit
        [BTN_DOWN_PRESSED, BTN_DOWN_PRESSED, BTN_DOWN_PRESSED, BTN_UP_PRESSED] = .ok s ∧
      s.currentItem = some n ∧
      ((menuItems n).parent ≠ none →
        siblingChain menuItems n = menuList ∧
        ∃ s', menuRun menuItems 10 s
            (List.replicate (siblingChain menuItems n).length BTN_DOWN_PRESSED) = .ok s' ∧
          s'.currentItem = some n) :=
  C2_down_cycle _ 10 (by decide)

/-- C3: whatever sequence of button events has been handled since `menuInit`,
when the node `n` then current is a node of a sibling chain, that is has a
parent, `DOWN` followed by `UP` returns `current` to `n`, and so does `UP`
followed by `DOWN`. -/
theorem C3_up_down_inverse (events : List Button) (fuel : Nat) (hf : 10 ≤ fuel) :
    ∃ s n, menuRun menuItems fuel menuInit events = .ok s ∧ s.currentItem = some n ∧
      ((menuItems n).parent ≠ none →
        (∃ s', menuRun menuItems fuel s [BTN_DOWN_PRESSED, BTN_UP_PRESSED] = .ok s' ∧
          s'.currentItem = some n) ∧
        (∃ s', menuRun menuItems fuel s [BTN_UP_PRESSED, BTN_DOWN_PRESSED] = .ok s' ∧
          s'.currentItem = some n)) := by
  obtain ⟨s, n, hrun, hc, hn⟩ := menuRun_reaches events fuel hf
  refine ⟨s, n, hrun, hc, ?_⟩
  intro hp
  have hmain : n ∈ menuList := by
    have key : ∀ m ∈ root :: menuList, (menuItems m).parent ≠ none → m ∈ menuList := by
      decide
    exact key n hn hp
  exact up_down_inverse_main s n fuel hc hmain hf

/-- C3, an instance: on the last top-level entry, reached by one `UP`, where
both moves wrap. -/
theorem C3_up_down_inverse_witness :
    ∃ s n, menuRun menuItems 10 menuInit [BTN_UP_PRESSED] = .ok s ∧
      s.currentItem = some n ∧
      ((menuItems n).parent ≠ none →
        (∃ s', menuRun menuItems 10 s [BTN_DOWN_PRESSED, BTN_UP_PRESSED] = .ok s' ∧
          s'.currentItem = some n) ∧
        (∃ s', menuRun menuItems 10 s [BTN_UP_PRESSED, BTN_DOWN_PRESSED] = .ok s' ∧
          s'.currentItem = some n)) :=
  C3_up_down_inverse _ 10 (by decide)

/-- C4: whatever sequence of button events has been handled since `menuInit`,
when the node `n` then current has a parent `p`, a `BACK` event handled by
`menuUpdate` redraws with `current` set to exactly `p`. -/
theorem C4_back_to_parent (events : List Button) (fuel : Nat) (hf : 10 ≤ fuel) :
    ∃ s n, menuRun menuItems fuel menuInit events = .ok s ∧ s.currentItem = some n ∧
      ∀ p, (menuItems n).parent = some p →
        menuUpdate menuItems fuel s BTN_BACK_PRESSED
          = .ok (menuDraw menuItems { s with currentItem := some p }) ∧
        (menuDraw menuItems { s with currentItem := some p }).currentItem
          = (menuItems n).parent := by
  obtain ⟨s, n, hrun, hc, hn⟩ := menuRun_reaches events fuel hf
  refine ⟨s, n, hrun, hc, ?_⟩
  intro p hp
  have hch : (menuItems p).child ≠ none := by
    have key : ∀ m ∈ root :: menuList, ∀ q, (menuItems m).parent = some q →
        (menuItems q).child ≠ none := by decide
    exact key n hn p hp
  exact back_to_parent_main s n p fuel hc hp hch hf

/-- C4, an instance: `BACK` on the calibration entry, reached by six `DOWN`
events. -/
theorem C4_back_to_parent_witness :
    ∃ s n, menuRun menuItems 10 menuInit (List.replicate 6 BTN_DOWN_PRESSED) = .ok s ∧
      s.currentItem = some n ∧
      ∀ p, (menuItems n).parent = some p →
        menuUpdate menuItems 10 s BTN_BACK_PRESSED
          = .ok (menuDraw menuItems { s with currentItem := some p }) ∧
        (menuDraw menuItems { s with currentItem := some p }).currentItem
          = (menuItems n).parent :=
  C4_back_to_parent _ 10 (by decide)

/-- C6: whatever sequence of button events has been handled since `menuInit`,
with `n` the node then current a `SELECT` event handled by `menuUpdate` runs
the action of `n` and leaves `current = n` when `n` has an action; otherwise
enters the child of `n` and redraws when there is one; otherwise changes
nothing and draws nothing. The new `current` is the child of `n` exactly when
`n` has no action and has a child. -/
theorem C6_select (events : List Button) (fuel : Nat) (hf : 10 ≤ fuel) :
    ∃ s n, menuRun menuItems fuel menuInit events = .ok s ∧ s.currentItem = some n ∧
      (∀ a, (menuItems n).action = some a →
        menuUpdate menuItems fuel s BTN_SELECT_PRESSED = .ok (runAction menuItems s a) ∧
        (runAction menuItems s a).currentItem = some n ∧
        Effect.action a ∈ (runAction menuItems s a).out) ∧
      (∀ c, (menuItems n).action = none → (menuItems n).child = some c →
        menuUpdate menuItems fuel s BTN_SELECT_PRESSED
          = .ok (menuDraw menuItems { s with currentItem := some c })) ∧
      ((menuItems n).action = none → (menuItems n).child = none →
        menuUpdate menuItems fuel s BTN_SELECT_PRESSED = .ok s) ∧
      (∃ s', menuUpdate menuItems fuel s BTN_SELECT_PRESSED = .ok s' ∧
        (s'.currentItem = (menuItems n).child ↔
          (menuItems n).action = none ∧ (menuItems n).child ≠ none)) := by
  obtain ⟨s, n, hrun, hc, hn⟩ := menuRun_reaches events fuel hf
  refine ⟨s, n, hrun, hc, ?_⟩
  have hw : (menuItems (((menuItems n).parent).getD root)).child ≠ none := by
    have key : ∀ m ∈ root :: menuList,
        (menuItems (((menuItems m).parent).getD root)).child ≠ none := by decide
    exact key n hn
  exact select_cases_main s n fuel hc hw hf

/-- C6, an instance: `SELECT` on the calibration entry, reached by six `DOWN`
events, which has both an action and a child. -/
theorem C6_select_witness :
    ∃ s n, menuRun menuItems 10 menuInit (List.replicate 6 BTN_DOWN_PRESSED) = .ok s ∧
      s.currentItem = some n ∧
      (∀ a, (menuItems n).action = some a →
        menuUpdate menuItems 10 s BTN_SELECT_PRESSED = .ok (runAction menuItems s a) ∧
        (runAction menuItems s a).currentItem = some n ∧
        Effect.action a ∈ (runAction menuItems s a).out) ∧
      (∀ c, (menuItems n).action = none → (menuItems n).child = some c →
        menuUpdate menuItems 10 s BTN_SELECT_PRESSED
          = .ok (menuDraw menuItems { s with currentItem := some c })) ∧
      ((menuItems n).action = none → (menuItems n).child = none →
        menuUpdate menuItems 10 s BTN_SELECT_PRESSED = .ok s) ∧
      (∃ s', menuUpdate menuItems 10 s BTN_SELECT_PRESSED = .ok s' ∧
        (s'.currentItem = (menuItems n).child ↔
          (menuItems n).action = none ∧ (menuItems n).child ≠ none)) :=
  C6_select _ 10 (by decide)

end Beehive
